import Mathlib

/-!
Verification of the PhoenixStrategyAnalyzer validation engine.

The Python sources are shallowly embedded over exact rationals (ℚ):
`numpy` float arithmetic is modelled by exact arithmetic, `np.sqrt`
values are passed as parameters characterised by their defining
equation, and the few places where IEEE semantics matter (division by
zero producing `inf`, `int(inf)` overflowing) are modelled explicitly
with a tagged value type.  Every definition mirrors one Python
function; names follow the source.
-/

namespace Phoenix

/-- Arithmetic mean of a list of rationals, `np.mean`.  The sources only
take means of non-empty lists; on `[]` the ℚ convention `x / 0 = 0`
applies (the Python code would produce `nan`, and every use below is
guarded by a non-emptiness check exactly as in the source). -/
def mean (l : List ℚ) : ℚ := l.sum / l.length

/-- `np.min` over a non-empty array (`l.min()`); the sources never call
it on an empty array, the `[]` case is junk. -/
def npMin : List ℚ → ℚ
  | [] => 0
  | x :: xs => xs.foldl min x

/-- `np.max` over a non-empty array. -/
def npMax : List ℚ → ℚ
  | [] => 0
  | x :: xs => xs.foldl max x

lemma foldl_min_le_init (xs : List ℚ) : ∀ a : ℚ, xs.foldl min a ≤ a := by
  induction xs with
  | nil => intro a; simp
  | cons x xs ih =>
      intro a
      calc (x :: xs).foldl min a = xs.foldl min (min a x) := by simp [List.foldl]
      _ ≤ min a x := ih (min a x)
      _ ≤ a := min_le_left _ _

lemma foldl_min_le_mem (xs : List ℚ) :
    ∀ (a x : ℚ), x ∈ xs → xs.foldl min a ≤ x := by
  induction xs with
  | nil => intro a x hx; simp at hx
  | cons y ys ih =>
      intro a x hx
      rcases List.mem_cons.mp hx with h | h
      · subst h
        calc (x :: ys).foldl min a = ys.foldl min (min a x) := by simp [List.foldl]
        _ ≤ min a x := foldl_min_le_init ys _
        _ ≤ x := min_le_right _ _
      · simpa [List.foldl] using ih (min a y) x h

lemma foldl_min_mem (xs : List ℚ) :
    ∀ a : ℚ, xs.foldl min a = a ∨ xs.foldl min a ∈ xs := by
  induction xs with
  | nil => intro a; left; rfl
  | cons y ys ih =>
      intro a
      have h := ih (min a y)
      rcases h with h | h
      · rcases min_choice a y with hm | hm
        · left; simpa [List.foldl, hm] using h
        · right; simp only [List.foldl] at *
          rw [h, hm]; exact List.mem_cons_self _ _
      · right
        simp only [List.foldl]
        exact List.mem_cons_of_mem _ h

/-- On a non-empty list `npMin` is a member. -/
lemma npMin_mem {l : List ℚ} (h : l ≠ []) : npMin l ∈ l := by
  cases l with
  | nil => simp at h
  | cons x xs =>
      rcases foldl_min_mem xs x with h1 | h1
      · rw [npMin, h1]; exact List.mem_cons_self _ _
      · exact List.mem_cons_of_mem _ (by simpa [npMin] using h1)

/-- `npMin` bounds every member from below. -/
lemma npMin_le {l : List ℚ} {x : ℚ} (hx : x ∈ l) : npMin l ≤ x := by
  cases l with
  | nil => simp at hx
  | cons y ys =>
      rcases List.mem_cons.mp hx with h | h
      · subst h; simpa [npMin] using foldl_min_le_init ys x
      · simpa [npMin] using foldl_min_le_mem ys y x h

/-- `0 < npMin l` iff every member is positive (non-empty `l`). -/
lemma npMin_pos_iff {l : List ℚ} (h : l ≠ []) :
    0 < npMin l ↔ ∀ x ∈ l, 0 < x := by
  constructor
  · intro hpos x hx
    exact lt_of_lt_of_le hpos (npMin_le hx)
  · intro hall
    exact hall _ (npMin_mem h)

/-! ## Extreme-Scenario Simulator (`src/validators/extreme_scenario.py`)

`ExtremeScenarioAnalyzer.analyze_capital_shortage`: replay the trades
at a fixed fraction of current capital.  `returns` below is
`self.returns`, i.e. the `return_pct` column already divided by 100. -/

/-- The capital path of `analyze_capital_shortage`: starts at the
initial capital, and after each trade
`capital += capital * (fixed_lot_pct / 100) * ret`. -/
def capital_history (initial_capital fixed_lot_pct : ℚ) (returns : List ℚ) : List ℚ :=
  returns.scanl (fun capital ret => capital + capital * (fixed_lot_pct / 100) * ret)
    initial_capital

/-- `ExtremeScenarioAnalyzer._find_trades_to_ruin`: the first index of
the capital history that is ≤ 0, or the sentinel −1. -/
def find_trades_to_ruin : List ℚ → ℤ
  | [] => -1
  | x :: xs =>
      if x ≤ 0 then 0
      else if find_trades_to_ruin xs = -1 then -1 else find_trades_to_ruin xs + 1

/-- Result record of `analyze_capital_shortage` (numeric fields). -/
structure ShortageStats where
  initial_capital : ℚ
  final_capital : ℚ
  total_return_pct : ℚ
  min_capital : ℚ
  max_capital : ℚ
  capital_depletion : ℚ
  capital_depletion_pct : ℚ
  survived : Bool
  drawdown_from_initial : ℚ
  trades_to_ruin : ℤ
  margin_of_safety : ℚ
  deriving Repr, DecidableEq

lemma capital_history_ne_nil (c f : ℚ) (rs : List ℚ) :
    capital_history c f rs ≠ [] := by
  cases rs <;> simp [capital_history, List.scanl]

/-- `ExtremeScenarioAnalyzer.analyze_capital_shortage`. -/
def analyze_capital_shortage (initial_capital fixed_lot_pct : ℚ)
    (returns : List ℚ) : ShortageStats :=
  let ch := capital_history initial_capital fixed_lot_pct returns
  { initial_capital := initial_capital
    final_capital := ch.getLast (capital_history_ne_nil _ _ _)
    total_return_pct :=
      (ch.getLast (capital_history_ne_nil _ _ _) - initial_capital) / initial_capital * 100
    min_capital := npMin ch
    max_capital := npMax ch
    capital_depletion := initial_capital - npMin ch
    capital_depletion_pct := (initial_capital - npMin ch) / initial_capital * 100
    survived := decide (0 < npMin ch)
    drawdown_from_initial := (npMin ch - initial_capital) / initial_capital * 100
    trades_to_ruin := find_trades_to_ruin ch
    margin_of_safety := npMin ch }

/-- `find_trades_to_ruin` never returns an integer below −1. -/
lemma find_trades_to_ruin_ge : ∀ l : List ℚ, -1 ≤ find_trades_to_ruin l := by
  intro l
  induction l with
  | nil => simp [find_trades_to_ruin]
  | cons x xs ih =>
      by_cases hx : x ≤ 0
      · simp [find_trades_to_ruin, hx]
      · by_cases hr : find_trades_to_ruin xs = -1
        · simp [find_trades_to_ruin, hx, hr]
        · simp only [find_trades_to_ruin, hx, if_false, hr]
          omega

/-- The sentinel −1 is returned iff no entry is ≤ 0. -/
lemma find_trades_to_ruin_eq_neg_one_iff (l : List ℚ) :
    find_trades_to_ruin l = -1 ↔ ∀ x ∈ l, 0 < x := by
  induction l with
  | nil => simp [find_trades_to_ruin]
  | cons x xs ih =>
      by_cases hx : x ≤ 0
      · simp only [find_trades_to_ruin, hx, if_true]
        constructor
        · intro h; omega
        · intro h
          exact absurd (h x (List.mem_cons_self _ _)) (not_lt.mpr hx)
      · by_cases hr : find_trades_to_ruin xs = -1
        · simp only [find_trades_to_ruin, hx, if_false, hr, if_true]
          constructor
          · intro _ x' hx'
            rcases List.mem_cons.mp hx' with h1 | h1
            · subst h1; exact lt_of_not_le hx
            · exact (ih.mp hr) x' h1
          · intro _; trivial
        · simp only [find_trades_to_ruin, hx, if_false, hr]
          have hge := find_trades_to_ruin_ge xs
          constructor
          · intro h; omega
          · intro h
            exact absurd (ih.mpr (fun x' hx' => h x' (List.mem_cons_of_mem _ hx'))) hr

/-- When not the sentinel, `find_trades_to_ruin` is the first index with
value ≤ 0. -/
lemma find_trades_to_ruin_spec (l : List ℚ) (i : ℕ)
    (h : find_trades_to_ruin l = i) :
    i < l.length ∧ l.getD i 1 ≤ 0 ∧ ∀ j < i, 0 < l.getD j 0 := by
  induction l generalizing i with
  | nil => simp [find_trades_to_ruin] at h
  | cons x xs ih =>
      by_cases hx : x ≤ 0
      · simp only [find_trades_to_ruin, hx, if_true] at h
        have : i = 0 := by omega
        subst this
        refine ⟨by simp, by simpa using hx, by omega⟩
      · by_cases hr : find_trades_to_ruin xs = -1
        · simp only [find_trades_to_ruin, hx, if_false, hr, if_true] at h
          omega
        · simp only [find_trades_to_ruin, hx, if_false, hr] at h
          have hge := find_trades_to_ruin_ge xs
          have hrnat : find_trades_to_ruin xs = ((i - 1 : ℕ) : ℤ) ∧ 1 ≤ i := by
            omega
          obtain ⟨hfx, hi1⟩ := hrnat
          obtain ⟨h1, h2, h3⟩ := ih (i - 1) hfx
          refine ⟨by simp; omega, ?_, ?_⟩
          · have : (x :: xs).getD i 1 = xs.getD (i - 1) 1 := by
              cases i with
              | zero => omega
              | succ n => simp
            rw [this]; exact h2
          · intro j hj
            cases j with
            | zero => simpa using lt_of_not_le hx
            | succ j' =>
                have : j' < i - 1 := by omega
                simpa using h3 j' this

/-- C10.  Mutual consistency of the capital-shortage result: `survived`
is true iff the whole capital history stays strictly positive, iff
`trades_to_ruin` is the sentinel −1; `margin_of_safety` always equals
`min_capital`; and a non-sentinel `trades_to_ruin` is the index of the
first capital-history entry ≤ 0. -/
theorem capital_shortage_consistent (returns : List ℚ)
    (initial_capital fixed_lot_pct : ℚ) (_hc : 0 < initial_capital) :
    ((analyze_capital_shortage initial_capital fixed_lot_pct returns).survived = true ↔
       (∀ x ∈ capital_history initial_capital fixed_lot_pct returns, 0 < x)) ∧
    ((analyze_capital_shortage initial_capital fixed_lot_pct returns).survived = true ↔
      (analyze_capital_shortage initial_capital fixed_lot_pct returns).trades_to_ruin = -1) ∧
    (analyze_capital_shortage initial_capital fixed_lot_pct returns).margin_of_safety =
      (analyze_capital_shortage initial_capital fixed_lot_pct returns).min_capital ∧
    ((analyze_capital_shortage initial_capital fixed_lot_pct returns).trades_to_ruin = -1 ∨
      ∃ i : ℕ,
        (analyze_capital_shortage initial_capital fixed_lot_pct returns).trades_to_ruin = i ∧
        i < (capital_history initial_capital fixed_lot_pct returns).length ∧
        (capital_history initial_capital fixed_lot_pct returns).getD i 1 ≤ 0 ∧
        ∀ j < i, 0 < (capital_history initial_capital fixed_lot_pct returns).getD j 0) := by
  set ch := capital_history initial_capital fixed_lot_pct returns with hch
  have hne : ch ≠ [] := capital_history_ne_nil _ _ _
  have hsurv :
      (analyze_capital_shortage initial_capital fixed_lot_pct returns).survived = true ↔
        0 < npMin ch := by
    simp [analyze_capital_shortage, hch]
  refine ⟨?_, ?_, ?_, ?_⟩
  · rw [hsurv]
    exact npMin_pos_iff hne
  · rw [hsurv]
    have : (analyze_capital_shortage initial_capital fixed_lot_pct returns).trades_to_ruin =
        find_trades_to_ruin ch := rfl
    rw [this, find_trades_to_ruin_eq_neg_one_iff]
    exact npMin_pos_iff hne
  · rfl
  · have hfr : (analyze_capital_shortage initial_capital fixed_lot_pct returns).trades_to_ruin =
        find_trades_to_ruin ch := rfl
    by_cases h : find_trades_to_ruin ch = -1
    · left; rw [hfr, h]
    · right
      have hge := find_trades_to_ruin_ge ch
      have h0 : 0 ≤ find_trades_to_ruin ch := by omega
      refine ⟨(find_trades_to_ruin ch).toNat, ?_, ?_⟩
      · rw [hfr]; omega
      · exact find_trades_to_ruin_spec ch _ (by omega)

/-- Witness for C10: the ruin-detection example of the spec — initial
capital 50, fixed fraction 100 %, a single trade returning −150 %
(−3/2 as a decimal). -/
theorem capital_shortage_consistent_witness :
    (0 : ℚ) < 50 ∧
    (analyze_capital_shortage 50 100 [-(3 : ℚ)/2]).margin_of_safety =
      (analyze_capital_shortage 50 100 [-(3 : ℚ)/2]).min_capital :=
  ⟨by norm_num, (capital_shortage_consistent [-(3 : ℚ)/2] 50 100 (by norm_num)).2.2.1⟩

/-! ## Walk-Forward Judge (`src/analysis/walk_forward.py`)

`WalkForwardAnalyzer.split`: the analyzer sorts the table by
`exit_date` (the identity on a chronologically sorted table) and cuts
it at `int(total_trades * train_ratio)`.  Python `int()` truncates
toward zero, which for the non-negative products arising here is the
floor. -/

namespace WalkForwardAnalyzer

/-- `WalkForwardAnalyzer.split` on the (already chronologically
sorted) list of trades. -/
def split {α : Type} (trades : List α) (train_ratio : ℚ) : List α × List α :=
  let split_idx := (⌊(trades.length : ℚ) * train_ratio⌋).toNat
  (trades.take split_idx, trades.drop split_idx)

end WalkForwardAnalyzer

/-- C6.  The Walk-Forward split puts exactly the first ⌊n·t⌋ rows in
Train and the rest in Test: Train is the prefix of length ⌊n·t⌋, Test
the matching suffix, their concatenation is the whole table (full
coverage, no overlap for a positional split), and for n = 100,
t = 7/10 the cut is at row 70. -/
theorem walk_forward_split_exact {α : Type} (trades : List α) (train_ratio : ℚ)
    (_h0 : 0 ≤ train_ratio) (h1 : train_ratio ≤ 1) :
    (WalkForwardAnalyzer.split trades train_ratio).1 =
      trades.take (⌊(trades.length : ℚ) * train_ratio⌋).toNat ∧
    (WalkForwardAnalyzer.split trades train_ratio).2 =
      trades.drop (⌊(trades.length : ℚ) * train_ratio⌋).toNat ∧
    (WalkForwardAnalyzer.split trades train_ratio).1 ++
      (WalkForwardAnalyzer.split trades train_ratio).2 = trades ∧
    (WalkForwardAnalyzer.split trades train_ratio).1.length =
      (⌊(trades.length : ℚ) * train_ratio⌋).toNat ∧
    (WalkForwardAnalyzer.split trades train_ratio).2.length =
      trades.length - (⌊(trades.length : ℚ) * train_ratio⌋).toNat ∧
    (⌊(trades.length : ℚ) * train_ratio⌋).toNat ≤ trades.length ∧
    (WalkForwardAnalyzer.split (List.range 100) (7/10)).1 = List.range 70 ∧
    (WalkForwardAnalyzer.split (List.range 100) (7/10)).2 = List.range' 70 30 := by
  have hk : (⌊(trades.length : ℚ) * train_ratio⌋).toNat ≤ trades.length := by
    have h2 : (trades.length : ℚ) * train_ratio ≤ (trades.length : ℚ) := by
      calc (trades.length : ℚ) * train_ratio ≤ (trades.length : ℚ) * 1 := by
            apply mul_le_mul_of_nonneg_left h1 (by positivity)
      _ = (trades.length : ℚ) := mul_one _
    have h3 : ⌊(trades.length : ℚ) * train_ratio⌋ ≤ (trades.length : ℤ) := by
      calc ⌊(trades.length : ℚ) * train_ratio⌋ ≤ ⌊(trades.length : ℚ)⌋ :=
            Int.floor_le_floor h2
      _ = (trades.length : ℤ) := Int.floor_natCast _
    omega
  have h70 : (⌊((List.range 100).length : ℚ) * (7/10)⌋).toNat = 70 := by
    have h : ((List.range 100).length : ℚ) * (7/10) = 70 := by norm_num
    rw [h]; rfl
  refine ⟨rfl, rfl, List.take_append_drop _ _, ?_, ?_, hk, ?_, ?_⟩
  · simpa [WalkForwardAnalyzer.split] using hk
  · simp [WalkForwardAnalyzer.split]
  · show (List.range 100).take (⌊((List.range 100).length : ℚ) * (7/10)⌋).toNat = _
    rw [h70, List.take_range]
    norm_num
  · show (List.range 100).drop (⌊((List.range 100).length : ℚ) * (7/10)⌋).toNat = _
    rw [h70]
    decide

/-- Witness for C6 at the spec's example: 100 chronologically ordered
rows and train ratio 0.7. -/
theorem walk_forward_split_exact_witness :
    (0 : ℚ) ≤ 7/10 ∧ (7 : ℚ)/10 ≤ 1 ∧
    (WalkForwardAnalyzer.split (List.range 100) (7/10)).1 = List.range 70 :=
  ⟨by norm_num, by norm_num,
    (walk_forward_split_exact (List.range 100) (7/10) (by norm_num) (by norm_num)).2.2.2.2.2.2.1⟩

/-! ## Trade Characteristics Analyzer
(`src/analysis/validators/trade_analysis.py`)

`TradeAnalyzer.classify_trades`: bucket each trade by return magnitude
(in percent units) and, when the `holding_hours` column exists, by
holding duration. -/

/-- numpy mask `(returns > 0) & (returns <= 1)`. -/
def tiny_profit (r : ℚ) : Bool := decide (0 < r ∧ r ≤ 1)

/-- numpy mask `(returns > 1) & (returns <= 3)`. -/
def small_profit (r : ℚ) : Bool := decide (1 < r ∧ r ≤ 3)

/-- numpy mask `(returns > 3) & (returns <= 10)`. -/
def medium_profit (r : ℚ) : Bool := decide (3 < r ∧ r ≤ 10)

/-- numpy mask `(returns > 10)`. -/
def large_profit (r : ℚ) : Bool := decide (10 < r)

/-- numpy mask `(returns < 0) & (returns >= -1)`. -/
def tiny_loss (r : ℚ) : Bool := decide (r < 0 ∧ -1 ≤ r)

/-- numpy mask `(returns < -1) & (returns >= -3)`. -/
def small_loss (r : ℚ) : Bool := decide (r < -1 ∧ -3 ≤ r)

/-- numpy mask `(returns < -3)`. -/
def large_loss (r : ℚ) : Bool := decide (r < -3)

/-- numpy mask `holding < 1`. -/
def scalp (h : ℚ) : Bool := decide (h < 1)

/-- numpy mask `(holding >= 1) & (holding < 24)`. -/
def short_term (h : ℚ) : Bool := decide (1 ≤ h ∧ h < 24)

/-- numpy mask `(holding >= 24) & (holding < 168)`. -/
def medium_term (h : ℚ) : Bool := decide (24 ≤ h ∧ h < 168)

/-- numpy mask `holding >= 168`. -/
def long_term (h : ℚ) : Bool := decide (168 ≤ h)

/-- One entry of the classification result: count, population ratio and
mean return of the bucket. -/
structure BucketStat where
  count : ℕ
  ratio : ℚ
  avg_return : ℚ
  deriving Repr, DecidableEq

/-- One size bucket of `classify_trades`. -/
def bucketStat (p : ℚ → Bool) (returns : List ℚ) : BucketStat :=
  let sel := returns.filter p
  { count := sel.length
    ratio := (sel.length : ℚ) / (returns.length : ℚ)
    avg_return := if 0 < sel.length then mean sel else 0 }

/-- One duration bucket of `classify_trades`: the mask is on the
`holding_hours` column, statistics are over the return column of the
selected rows. -/
def durBucketStat (p : ℚ → Bool) (rows : List (ℚ × ℚ)) : BucketStat :=
  let sel := rows.filter (fun x => p x.2)
  { count := sel.length
    ratio := (sel.length : ℚ) / (rows.length : ℚ)
    avg_return := if 0 < sel.length then mean (sel.map Prod.fst) else 0 }

/-- The `size_classification` block of `classify_trades`. -/
structure SizeClassification where
  tiny_profit_0_1 : BucketStat
  small_profit_1_3 : BucketStat
  medium_profit_3_10 : BucketStat
  large_profit_10_plus : BucketStat
  tiny_loss_0_1 : BucketStat
  small_loss_1_3 : BucketStat
  large_loss_3_plus : BucketStat
  deriving Repr, DecidableEq

/-- The `holding_classification` block of `classify_trades`. -/
structure HoldingClassification where
  scalp_lt1h : BucketStat
  short_1h_24h : BucketStat
  medium_1d_7d : BucketStat
  long_7d_plus : BucketStat
  deriving Repr, DecidableEq

/-- Result of `classify_trades`; `holding_classification` is `none`
when the `holding_hours` column is absent (the source returns `{}`). -/
structure Classification where
  size_classification : SizeClassification
  holding_classification : Option HoldingClassification
  deriving Repr, DecidableEq

/-- `TradeAnalyzer.classify_trades`; `holding = some hs` models a table
with a `holding_hours` column aligned row-by-row with `return_pct`. -/
def classify_trades (returns : List ℚ) (holding : Option (List ℚ)) : Classification :=
  { size_classification :=
      { tiny_profit_0_1 := bucketStat tiny_profit returns
        small_profit_1_3 := bucketStat small_profit returns
        medium_profit_3_10 := bucketStat medium_profit returns
        large_profit_10_plus := bucketStat large_profit returns
        tiny_loss_0_1 := bucketStat tiny_loss returns
        small_loss_1_3 := bucketStat small_loss returns
        large_loss_3_plus := bucketStat large_loss returns }
    holding_classification :=
      match holding with
      | none => none
      | some hs =>
          some { scalp_lt1h := durBucketStat scalp (returns.zip hs)
                 short_1h_24h := durBucketStat short_term (returns.zip hs)
                 medium_1d_7d := durBucketStat medium_term (returns.zip hs)
                 long_7d_plus := durBucketStat long_term (returns.zip hs) } }

/-- Sum of the seven return-magnitude bucket counts. -/
def sizeCountSum (c : SizeClassification) : ℕ :=
  c.tiny_profit_0_1.count + c.small_profit_1_3.count + c.medium_profit_3_10.count +
  c.large_profit_10_plus.count + c.tiny_loss_0_1.count + c.small_loss_1_3.count +
  c.large_loss_3_plus.count

/-- Sum of the four duration bucket counts. -/
def holdingCountSum (c : HoldingClassification) : ℕ :=
  c.scalp_lt1h.count + c.short_1h_24h.count + c.medium_1d_7d.count + c.long_7d_plus.count

/-- The numpy mask `returns != 0` (population of classified trades). -/
def nonzero (r : ℚ) : Bool := decide (r ≠ 0)

lemma length_filter_cons {α : Type} (p : α → Bool) (a : α) (l : List α) :
    ((a :: l).filter p).length = (p a).toNat + (l.filter p).length := by
  by_cases h : p a
  · simp [List.filter_cons, h]; omega
  · simp [List.filter_cons, h]

/-- At any non-zero return exactly one magnitude mask fires; at return
zero none does. -/
lemma size_indicator (r : ℚ) :
    (tiny_profit r).toNat + (small_profit r).toNat + (medium_profit r).toNat +
    (large_profit r).toNat + (tiny_loss r).toNat + (small_loss r).toNat +
    (large_loss r).toNat = if r = 0 then 0 else 1 := by
  rcases lt_trichotomy r 0 with hneg | hzero | hpos
  · have hr0 : r ≠ 0 := ne_of_lt hneg
    have hnp : ¬ (0 < r) := not_lt.mpr hneg.le
    have hnp1 : ¬ (1 < r) := by intro h; linarith
    have hnp3 : ¬ (3 < r) := by intro h; linarith
    have hnp10 : ¬ (10 < r) := by intro h; linarith
    rcases le_or_lt (-1) r with h1 | h1
    · have h2 : ¬ (r < -1) := not_lt.mpr h1
      have h3 : ¬ (r < -3) := by intro h; linarith
      simp [tiny_profit, small_profit, medium_profit, large_profit, tiny_loss,
        small_loss, large_loss, hneg, hnp, hnp1, hnp3, hnp10, h1, h2, h3, hr0]
    · rcases le_or_lt (-3) r with h2 | h2
      · have h3 : ¬ (-1 ≤ r) := not_le.mpr h1
        have h4 : ¬ (r < -3) := not_lt.mpr h2
        simp [tiny_profit, small_profit, medium_profit, large_profit, tiny_loss,
          small_loss, large_loss, hneg, hnp, hnp1, hnp3, hnp10, h1, h2, h3, h4, hr0]
      · have h3 : ¬ (-1 ≤ r) := by intro h; linarith
        have h4 : ¬ (-3 ≤ r) := not_le.mpr h2
        simp [tiny_profit, small_profit, medium_profit, large_profit, tiny_loss,
          small_loss, large_loss, hneg, hnp, hnp1, hnp3, hnp10, h2, h3, h4, hr0]
  · subst hzero
    norm_num [tiny_profit, small_profit, medium_profit, large_profit, tiny_loss,
      small_loss, large_loss]
  · have hr0 : r ≠ 0 := ne_of_gt hpos
    have hnl : ¬ (r < 0) := not_lt.mpr hpos.le
    have hnl1 : ¬ (r < -1) := by intro h; linarith
    have hnl3 : ¬ (r < -3) := by intro h; linarith
    rcases le_or_lt r 1 with h1 | h1
    · have h2 : ¬ (1 < r) := not_lt.mpr h1
      have h3 : ¬ (3 < r) := by intro h; linarith
      have h4 : ¬ (10 < r) := by intro h; linarith
      simp [tiny_profit, small_profit, medium_profit, large_profit, tiny_loss,
        small_loss, large_loss, hpos, hnl, hnl1, hnl3, h1, h2, h3, h4, hr0]
    · rcases le_or_lt r 3 with h2 | h2
      · have h3 : ¬ (r ≤ 1) := not_le.mpr h1
        have h4 : ¬ (3 < r) := not_lt.mpr h2
        have h5 : ¬ (10 < r) := by intro h; linarith
        simp [tiny_profit, small_profit, medium_profit, large_profit, tiny_loss,
          small_loss, large_loss, hpos, hnl, hnl1, hnl3, h1, h2, h3, h4, h5, hr0]
      · rcases le_or_lt r 10 with h3 | h3
        · have h4 : ¬ (r ≤ 1) := by intro h; linarith
          have h5 : ¬ (r ≤ 3) := not_le.mpr h2
          have h6 : ¬ (10 < r) := not_lt.mpr h3
          simp [tiny_profit, small_profit, medium_profit, large_profit, tiny_loss,
            small_loss, large_loss, hpos, hnl, hnl1, hnl3, h1, h2, h3, h4, h5, h6, hr0]
        · have h4 : ¬ (r ≤ 1) := by intro h; linarith
          have h5 : ¬ (r ≤ 3) := by intro h; linarith
          have h6 : ¬ (r ≤ 10) := not_le.mpr h3
          simp [tiny_profit, small_profit, medium_profit, large_profit, tiny_loss,
            small_loss, large_loss, hpos, hnl, hnl1, hnl3, h1, h2, h3, h4, h5, h6, hr0]

/-- At any holding duration exactly one duration mask fires. -/
lemma duration_indicator (h : ℚ) :
    (scalp h).toNat + (short_term h).toNat + (medium_term h).toNat +
    (long_term h).toNat = 1 := by
  rcases lt_or_le h 1 with h1 | h1
  · have h2 : ¬ (1 ≤ h) := not_le.mpr h1
    have h3 : ¬ (24 ≤ h) := by intro hc; linarith
    have h4 : ¬ (168 ≤ h) := by intro hc; linarith
    simp [scalp, short_term, medium_term, long_term, h1, h2, h3, h4]
  · rcases lt_or_le h 24 with h2 | h2
    · have h3 : ¬ (h < 1) := not_lt.mpr h1
      have h4 : ¬ (24 ≤ h) := not_le.mpr h2
      have h5 : ¬ (168 ≤ h) := by intro hc; linarith
      simp [scalp, short_term, medium_term, long_term, h1, h2, h3, h4, h5]
    · rcases lt_or_le h 168 with h3 | h3
      · have h4 : ¬ (h < 1) := by intro hc; linarith
        have h5 : ¬ (h < 24) := not_lt.mpr h2
        have h6 : ¬ (168 ≤ h) := not_le.mpr h3
        simp [scalp, short_term, medium_term, long_term, h2, h3, h4, h5, h6]
      · have h4 : ¬ (h < 1) := by intro hc; linarith
        have h5 : ¬ (h < 24) := by intro hc; linarith
        have h6 : ¬ (h < 168) := not_lt.mpr h3
        simp [scalp, short_term, medium_term, long_term, h3, h4, h5, h6]

lemma size_filter_sum (rs : List ℚ) :
    (rs.filter tiny_profit).length + (rs.filter small_profit).length +
    (rs.filter medium_profit).length + (rs.filter large_profit).length +
    (rs.filter tiny_loss).length + (rs.filter small_loss).length +
    (rs.filter large_loss).length =
    (rs.filter nonzero).length := by
  induction rs with
  | nil => simp
  | cons r rs ih =>
      rw [length_filter_cons, length_filter_cons, length_filter_cons, length_filter_cons,
        length_filter_cons, length_filter_cons, length_filter_cons, length_filter_cons]
      have hind := size_indicator r
      by_cases h0 : r = 0
      · rw [if_pos h0] at hind
        have hz : (nonzero r).toNat = 0 := by simp [nonzero, h0]
        omega
      · rw [if_neg h0] at hind
        have hz : (nonzero r).toNat = 1 := by simp [nonzero, h0]
        omega

lemma duration_filter_sum (rows : List (ℚ × ℚ)) :
    (rows.filter (fun x => scalp x.2)).length +
    (rows.filter (fun x => short_term x.2)).length +
    (rows.filter (fun x => medium_term x.2)).length +
    (rows.filter (fun x => long_term x.2)).length = rows.length := by
  induction rows with
  | nil => simp
  | cons x rows ih =>
      rw [length_filter_cons, length_filter_cons, length_filter_cons, length_filter_cons]
      have hind := duration_indicator x.2
      simp only [List.length_cons]
      omega

/-- C4 (amended).  Every trade with a non-zero return falls into exactly
one return-magnitude bucket, a zero-return trade into none, so the
magnitude bucket counts sum to the number of trades with non-zero
return; every trade falls into exactly one duration bucket and those
counts sum to the total trade count. -/
theorem classify_trades_partition (returns hs : List ℚ)
    (hlen : hs.length = returns.length) :
    (∀ r : ℚ, r ≠ 0 →
        (tiny_profit r).toNat + (small_profit r).toNat + (medium_profit r).toNat +
        (large_profit r).toNat + (tiny_loss r).toNat + (small_loss r).toNat +
        (large_loss r).toNat = 1) ∧
    (tiny_profit 0 = false ∧ small_profit 0 = false ∧ medium_profit 0 = false ∧
      large_profit 0 = false ∧ tiny_loss 0 = false ∧ small_loss 0 = false ∧
      large_loss 0 = false) ∧
    sizeCountSum (classify_trades returns (some hs)).size_classification =
      (returns.filter nonzero).length ∧
    (∀ h : ℚ,
        (scalp h).toNat + (short_term h).toNat + (medium_term h).toNat +
        (long_term h).toNat = 1) ∧
    (∃ hc, (classify_trades returns (some hs)).holding_classification = some hc ∧
      holdingCountSum hc = returns.length) := by
  refine ⟨?_, ?_, ?_, fun h => duration_indicator h, ?_⟩
  · intro r hr
    have := size_indicator r
    rw [if_neg hr] at this
    exact this
  · norm_num [tiny_profit, small_profit, medium_profit, large_profit, tiny_loss,
      small_loss, large_loss]
  · show (returns.filter tiny_profit).length + (returns.filter small_profit).length +
      (returns.filter medium_profit).length + (returns.filter large_profit).length +
      (returns.filter tiny_loss).length + (returns.filter small_loss).length +
      (returns.filter large_loss).length = _
    exact size_filter_sum returns
  · refine ⟨_, rfl, ?_⟩
    show (List.filter (fun x => scalp x.2) (returns.zip hs)).length +
      (List.filter (fun x => short_term x.2) (returns.zip hs)).length +
      (List.filter (fun x => medium_term x.2) (returns.zip hs)).length +
      (List.filter (fun x => long_term x.2) (returns.zip hs)).length = returns.length
    rw [duration_filter_sum]
    simp [List.length_zip, hlen]

/-- Witness for C4 at a three-row table covering a profit, a loss and
both duration axes. -/
theorem classify_trades_partition_witness :
    ([(1 : ℚ), 2, 3].length = [(2 : ℚ), -1, 5].length) ∧
    sizeCountSum (classify_trades [(2 : ℚ), -1, 5] (some [1, 2, 3])).size_classification =
      ([(2 : ℚ), -1, 5].filter nonzero).length :=
  ⟨rfl, (classify_trades_partition [(2 : ℚ), -1, 5] [1, 2, 3] rfl).2.2.1⟩

/-- Counterexample for C4 as stated: in a table with a single trade of
return exactly 0, the magnitude bucket counts sum to 0, not to the
total trade count 1. -/
theorem classify_trades_zero_return_counterexample :
    sizeCountSum (classify_trades [(0 : ℚ)] none).size_classification = 0 ∧
    [(0 : ℚ)].length = 1 ∧ (0 : ℕ) ≠ 1 := by
  refine ⟨?_, rfl, by norm_num⟩
  show ([(0 : ℚ)].filter tiny_profit).length + ([(0 : ℚ)].filter small_profit).length +
    ([(0 : ℚ)].filter medium_profit).length + ([(0 : ℚ)].filter large_profit).length +
    ([(0 : ℚ)].filter tiny_loss).length + ([(0 : ℚ)].filter small_loss).length +
    ([(0 : ℚ)].filter large_loss).length = 0
  norm_num [tiny_profit, small_profit, medium_profit, large_profit, tiny_loss,
    small_loss, large_loss, List.filter]

/-! ## Time-Series Analyzer (`src/analysis/validators/timeseries.py`)

`TimeSeriesAnalyzer.analyze_consecutive_trades` and its helper
`_get_max_consecutive` (a running (max, current) loop over a Boolean
mask). -/

/-- One step of the `_get_max_consecutive` loop: state is
`(max_count, current_count)`. -/
def mcStep : ℕ × ℕ → Bool → ℕ × ℕ :=
  fun s b => if b then (max s.1 (s.2 + 1), s.2 + 1) else (s.1, 0)

/-- `TimeSeriesAnalyzer._get_max_consecutive`. -/
def get_max_consecutive (condition : List Bool) : ℕ :=
  (condition.foldl mcStep (0, 0)).1

/-- Pure recursion equivalent of the loop, parameterised by the length
`cc` of the `true`-run immediately preceding the remaining input. -/
def mcRec : ℕ → List Bool → ℕ
  | _, [] => 0
  | cc, b :: xs => if b then max (cc + 1) (mcRec (cc + 1) xs) else mcRec 0 xs

lemma mcRec_nil (cc : ℕ) : mcRec cc [] = 0 := rfl

lemma mcRec_cons_t (cc : ℕ) (xs : List Bool) :
    mcRec cc (true :: xs) = max (cc + 1) (mcRec (cc + 1) xs) := by
  simp [mcRec]

lemma mcRec_cons_f (cc : ℕ) (xs : List Bool) :
    mcRec cc (false :: xs) = mcRec 0 xs := by
  simp [mcRec]

lemma foldl_mcStep_eq (l : List Bool) :
    ∀ mc cc : ℕ, (l.foldl mcStep (mc, cc)).1 = max mc (mcRec cc l) := by
  induction l with
  | nil => intro mc cc; simp [mcRec_nil]
  | cons b xs ih =>
      intro mc cc
      cases b with
      | true =>
          have h1 : mcStep (mc, cc) true = (max mc (cc + 1), cc + 1) := by simp [mcStep]
          calc (List.foldl mcStep (mc, cc) (true :: xs)).1
              = (List.foldl mcStep (mcStep (mc, cc) true) xs).1 := rfl
            _ = (List.foldl mcStep (max mc (cc + 1), cc + 1) xs).1 := by rw [h1]
            _ = max (max mc (cc + 1)) (mcRec (cc + 1) xs) := ih _ _
            _ = max mc (mcRec cc (true :: xs)) := by rw [mcRec_cons_t]; omega
      | false =>
          have h1 : mcStep (mc, cc) false = (mc, 0) := by simp [mcStep]
          calc (List.foldl mcStep (mc, cc) (false :: xs)).1
              = (List.foldl mcStep (mcStep (mc, cc) false) xs).1 := rfl
            _ = (List.foldl mcStep (mc, 0) xs).1 := by rw [h1]
            _ = max mc (mcRec 0 xs) := ih _ _
            _ = max mc (mcRec cc (false :: xs)) := by rw [mcRec_cons_f]

lemma get_max_consecutive_eq (l : List Bool) : get_max_consecutive l = mcRec 0 l := by
  rw [get_max_consecutive, foldl_mcStep_eq]
  omega

/-- Length of the leading `true`-run. -/
def leadRun : List Bool → ℕ
  | [] => 0
  | b :: xs => if b then 1 + leadRun xs else 0

lemma leadRun_cons_t (xs : List Bool) : leadRun (true :: xs) = 1 + leadRun xs := by
  simp [leadRun]

lemma leadRun_cons_f (xs : List Bool) : leadRun (false :: xs) = 0 := by
  simp [leadRun]

lemma take_leadRun (l : List Bool) :
    l.take (leadRun l) = List.replicate (leadRun l) true := by
  induction l with
  | nil => simp [leadRun]
  | cons b xs ih =>
      cases b with
      | true =>
          rw [leadRun_cons_t, Nat.add_comm 1 (leadRun xs)]
          simp [List.replicate_succ, ih]
      | false => simp [leadRun_cons_f]

lemma mcRec_mono (l : List Bool) :
    ∀ cc cc2 : ℕ, cc ≤ cc2 → mcRec cc l ≤ mcRec cc2 l := by
  induction l with
  | nil => intro _ _ _; simp [mcRec_nil]
  | cons b xs ih =>
      intro cc cc2 h
      cases b with
      | true =>
          rw [mcRec_cons_t, mcRec_cons_t]
          have := ih (cc + 1) (cc2 + 1) (by omega)
          omega
      | false => rw [mcRec_cons_f, mcRec_cons_f]

/-- `mcRec cc (true :: xs)` is the larger of the run crossing the start
(of length `cc + 1 + leadRun xs`) and the best run inside the list. -/
lemma mcRec_true (xs : List Bool) :
    ∀ cc : ℕ, mcRec cc (true :: xs) = max (cc + 1 + leadRun xs) (mcRec 0 (true :: xs)) := by
  induction xs with
  | nil =>
      intro cc
      rw [mcRec_cons_t, mcRec_cons_t]
      simp [mcRec_nil, leadRun]
  | cons b ys ih =>
      intro cc
      cases b with
      | true =>
          have h1 := ih (cc + 1)
          have h2 := ih 1
          have e1 := mcRec_cons_t cc (true :: ys)
          have e2 := mcRec_cons_t 0 (true :: ys)
          rw [Nat.zero_add] at e2
          have e3 := leadRun_cons_t ys
          rw [e1, e2, e3, h1, h2]
          omega
      | false =>
          have e1 := mcRec_cons_t cc (false :: ys)
          have e2 := mcRec_cons_t 0 (false :: ys)
          rw [Nat.zero_add] at e2
          have e3 := mcRec_cons_f (cc + 1) ys
          have e4 := mcRec_cons_f 1 ys
          have e5 := leadRun_cons_f ys
          rw [e1, e2, e3, e4, e5]
          all_goals omega

/-- Decomposition at a leading `true`: best run is either the leading
run or the best run of the tail. -/
lemma mcRec_cons_true (xs : List Bool) :
    mcRec 0 (true :: xs) = max (1 + leadRun xs) (mcRec 0 xs) := by
  cases xs with
  | nil => simp [mcRec_cons_t, mcRec_nil, leadRun]
  | cons b ys =>
      cases b with
      | false =>
          rw [mcRec_cons_t, Nat.zero_add, mcRec_cons_f, mcRec_cons_f, leadRun_cons_f]
      | true =>
          rw [mcRec_cons_t, Nat.zero_add, mcRec_true ys 1, leadRun_cons_t]
          have h2 : mcRec 0 (true :: ys) = max (1 + leadRun ys) (mcRec 0 (true :: ys)) := by
            have := mcRec_true ys 0
            rw [Nat.zero_add] at this
            exact this
          omega

/-- Any `true`-run of the list bounds `mcRec 0` from below. -/
lemma mcRec_ge_run (l : List Bool) :
    ∀ (i k : ℕ), (l.drop i).take k = List.replicate k true → k ≤ mcRec 0 l := by
  induction l with
  | nil =>
      intro i k h
      simp only [List.drop_nil, List.take_nil] at h
      have := congrArg List.length h
      simp at this
      omega
  | cons b xs ih =>
      intro i k h
      cases i with
      | succ j =>
          have hx := ih j k (by simpa using h)
          calc k ≤ mcRec 0 xs := hx
          _ ≤ mcRec 0 (b :: xs) := by
                cases b with
                | true =>
                    rw [mcRec_cons_t, Nat.zero_add]
                    have := mcRec_mono xs 0 1 (by omega)
                    omega
                | false => rw [mcRec_cons_f]
      | zero =>
          cases k with
          | zero => omega
          | succ k2 =>
              simp only [List.drop_zero] at h
              have hb : b = true := by
                have := congrArg (fun t => t.head?) h
                simpa [List.replicate] using this
              subst hb
              have htail : xs.take k2 = List.replicate k2 true := by
                have := congrArg List.tail h
                simpa [List.replicate] using this
              have hlead : k2 ≤ leadRun xs := by
                clear h ih
                induction xs generalizing k2 with
                | nil =>
                    have := congrArg List.length htail
                    simp at this
                    omega
                | cons c ys ih2 =>
                    cases k2 with
                    | zero => omega
                    | succ k3 =>
                        have hc : c = true := by
                          have := congrArg (fun t => t.head?) htail
                          simpa [List.replicate] using this
                        subst hc
                        have ht2 : ys.take k3 = List.replicate k3 true := by
                          have := congrArg List.tail htail
                          simpa [List.replicate] using this
                        have := ih2 k3 ht2
                        rw [leadRun_cons_t]
                        omega
              have := mcRec_cons_true xs
              omega

/-- `mcRec 0 l` is realised by an actual `true`-run of the list. -/
lemma mcRec_exists_run (l : List Bool) :
    ∃ i : ℕ, (l.drop i).take (mcRec 0 l) = List.replicate (mcRec 0 l) true := by
  induction l with
  | nil => exact ⟨0, by simp [mcRec_nil]⟩
  | cons b xs ih =>
      cases b with
      | false =>
          obtain ⟨i, hi⟩ := ih
          refine ⟨i + 1, ?_⟩
          rw [mcRec_cons_f]
          simpa using hi
      | true =>
          rcases le_or_lt (mcRec 0 xs) (1 + leadRun xs) with hle | hlt
          · have heq : mcRec 0 (true :: xs) = leadRun (true :: xs) := by
              rw [mcRec_cons_true, leadRun_cons_t]
              omega
            refine ⟨0, ?_⟩
            rw [heq, List.drop_zero, take_leadRun]
          · obtain ⟨i, hi⟩ := ih
            have heq : mcRec 0 (true :: xs) = mcRec 0 xs := by
              rw [mcRec_cons_true]
              omega
            refine ⟨i + 1, ?_⟩
            rw [heq]
            simpa using hi

/-- One step of the `_get_all_consecutive_lengths` loop: state is
`(lengths, current_count)`. -/
def gaclStep : List ℕ × ℕ → Bool → List ℕ × ℕ :=
  fun s b =>
    if b then (s.1, s.2 + 1)
    else if 0 < s.2 then (s.1 ++ [s.2], 0) else (s.1, 0)

/-- `TimeSeriesAnalyzer._get_all_consecutive_lengths`. -/
def get_all_consecutive_lengths (condition : List Bool) : List ℕ :=
  let s := condition.foldl gaclStep ([], 0)
  if 0 < s.2 then s.1 ++ [s.2] else s.1

/-- `np.mean` of a list of counts. -/
def meanN (l : List ℕ) : ℚ := (l.sum : ℚ) / l.length

/-- `TimeSeriesAnalyzer._calculate_psychological_pressure`. -/
def calculate_psychological_pressure (max_consecutive_losses total_trades : ℕ) : ℚ :=
  if total_trades = 0 then 0
  else min ((max_consecutive_losses : ℚ) / total_trades * 100) 100

/-- Result record of `analyze_consecutive_trades`. -/
structure ConsecutiveStats where
  max_consecutive_wins : ℕ
  max_consecutive_losses : ℕ
  avg_consecutive_wins : ℚ
  avg_consecutive_losses : ℚ
  psychological_pressure : ℚ
  psychological_pressure_score : ℚ
  deriving Repr, DecidableEq

/-- `TimeSeriesAnalyzer.analyze_consecutive_trades`: wins are the mask
`trades_list > 0`, losses the mask `trades_list <= 0`. -/
def analyze_consecutive_trades (returns : List ℚ) : ConsecutiveStats :=
  { max_consecutive_wins := get_max_consecutive (returns.map fun r => decide (0 < r))
    max_consecutive_losses := get_max_consecutive (returns.map fun r => decide (r ≤ 0))
    avg_consecutive_wins :=
      if get_all_consecutive_lengths (returns.map fun r => decide (0 < r)) ≠ [] then
        meanN (get_all_consecutive_lengths (returns.map fun r => decide (0 < r)))
      else 0
    avg_consecutive_losses :=
      if get_all_consecutive_lengths (returns.map fun r => decide (r ≤ 0)) ≠ [] then
        meanN (get_all_consecutive_lengths (returns.map fun r => decide (r ≤ 0)))
      else 0
    psychological_pressure :=
      (get_max_consecutive (returns.map fun r => decide (r ≤ 0)) : ℚ)
    psychological_pressure_score :=
      calculate_psychological_pressure
        (get_max_consecutive (returns.map fun r => decide (r ≤ 0))) returns.length }

/-- C7.  The streak fields are the longest runs of the `return > 0`
mask and of the `return ≤ 0` mask (zero-return trades count toward the
loss streak): each reported maximum is realised by an actual run of
consecutive `true`s and bounds every such run; on the spec's example
sequence the maxima are 3 wins and 4 losses. -/
theorem consecutive_trades_streaks (returns : List ℚ) :
    (∃ i : ℕ,
      ((returns.map fun r => decide (0 < r)).drop i).take
          (analyze_consecutive_trades returns).max_consecutive_wins =
        List.replicate (analyze_consecutive_trades returns).max_consecutive_wins true) ∧
    (∀ i k : ℕ,
      ((returns.map fun r => decide (0 < r)).drop i).take k = List.replicate k true →
        k ≤ (analyze_consecutive_trades returns).max_consecutive_wins) ∧
    (∃ i : ℕ,
      ((returns.map fun r => decide (r ≤ 0)).drop i).take
          (analyze_consecutive_trades returns).max_consecutive_losses =
        List.replicate (analyze_consecutive_trades returns).max_consecutive_losses true) ∧
    (∀ i k : ℕ,
      ((returns.map fun r => decide (r ≤ 0)).drop i).take k = List.replicate k true →
        k ≤ (analyze_consecutive_trades returns).max_consecutive_losses) ∧
    (analyze_consecutive_trades
        [1, 1, -1, 1, 1, 1, -1, -1, -1, -1]).max_consecutive_wins = 3 ∧
    (analyze_consecutive_trades
        [1, 1, -1, 1, 1, 1, -1, -1, -1, -1]).max_consecutive_losses = 4 := by
  have hw : (analyze_consecutive_trades returns).max_consecutive_wins =
      mcRec 0 (returns.map fun r => decide (0 < r)) :=
    get_max_consecutive_eq _
  have hl : (analyze_consecutive_trades returns).max_consecutive_losses =
      mcRec 0 (returns.map fun r => decide (r ≤ 0)) :=
    get_max_consecutive_eq _
  refine ⟨?_, ?_, ?_, ?_, ?_, ?_⟩
  · rw [hw]; exact mcRec_exists_run _
  · intro i k h; rw [hw]; exact mcRec_ge_run _ i k h
  · rw [hl]; exact mcRec_exists_run _
  · intro i k h; rw [hl]; exact mcRec_ge_run _ i k h
  · decide
  · decide

/-! ## Position Sizing Analyzer (`src/validators/position_sizing.py`)

`PositionSizer.calculate_kelly`.  The analyzer stores
`return_pct / 100` and `calculate_kelly` multiplies by 100 again, so
the computation below runs on percent units, as in the source. -/

/-- `PositionSizer._calculate_required_trades_for_kelly`. -/
def calculate_required_trades_for_kelly (win_rate : ℚ) : ℚ :=
  max 30 (30 - |win_rate - 1/2| * 20)

/-- Result record of `calculate_kelly` (numeric fields;
`kelly_feasibility` is `true` for the `'OK'` branch). -/
structure KellyStats where
  full_kelly_pct : ℚ
  fractional_kelly_pct : ℚ
  recommended_kelly_pct : ℚ
  win_rate : ℚ
  loss_rate : ℚ
  avg_win : ℚ
  avg_loss : ℚ
  win_loss_ratio : ℚ
  total_trades : ℕ
  required_trades_for_significance : ℤ
  kelly_feasibility : Bool
  deriving Repr, DecidableEq

/-- `wins = returns[returns > 0]` of `calculate_kelly`. -/
def kelly_wins (returns : List ℚ) : List ℚ := returns.filter fun r => decide (0 < r)

/-- `losses = returns[returns < 0]` of `calculate_kelly`. -/
def kelly_losses (returns : List ℚ) : List ℚ := returns.filter fun r => decide (r < 0)

/-- local `win_rate` of `calculate_kelly`. -/
def kelly_win_rate (returns : List ℚ) : ℚ :=
  if 0 < returns.length then ((kelly_wins returns).length : ℚ) / returns.length else 0

/-- local `loss_rate` of `calculate_kelly`: the fraction of strictly
negative trades (NOT `1 − win_rate`). -/
def kelly_loss_rate (returns : List ℚ) : ℚ :=
  if 0 < returns.length then ((kelly_losses returns).length : ℚ) / returns.length else 0

/-- local `avg_win` of `calculate_kelly`. -/
def kelly_avg_win (returns : List ℚ) : ℚ :=
  if 0 < (kelly_wins returns).length then mean (kelly_wins returns) else 0

/-- local `avg_loss` (absolute value) of `calculate_kelly`. -/
def kelly_avg_loss (returns : List ℚ) : ℚ :=
  if 0 < (kelly_losses returns).length then |mean (kelly_losses returns)| else 0

/-- local `kelly_pct` of `calculate_kelly`:
`f = (p·b − q)/b` with `b = avg_win/avg_loss`, guarded on
`avg_loss > 0` and `b > 0`. -/
def kelly_pct (returns : List ℚ) : ℚ :=
  if 0 < kelly_avg_loss returns then
    if 0 < kelly_avg_win returns / kelly_avg_loss returns then
      (kelly_win_rate returns * (kelly_avg_win returns / kelly_avg_loss returns) -
        kelly_loss_rate returns) / (kelly_avg_win returns / kelly_avg_loss returns)
    else 0
  else 0

/-- `PositionSizer.calculate_kelly`. -/
def calculate_kelly (returns : List ℚ) : KellyStats :=
  { full_kelly_pct := max 0 (kelly_pct returns * 100)
    fractional_kelly_pct := max 0 (kelly_pct returns / 2 * 100)
    recommended_kelly_pct := max 0 (kelly_pct returns / 2 * 100)
    win_rate := kelly_win_rate returns * 100
    loss_rate := kelly_loss_rate returns * 100
    avg_win := kelly_avg_win returns
    avg_loss := kelly_avg_loss returns
    win_loss_ratio :=
      if 0 < kelly_avg_loss returns then
        kelly_avg_win returns / kelly_avg_loss returns
      else 0
    total_trades := returns.length
    required_trades_for_significance :=
      ⌊calculate_required_trades_for_kelly (kelly_win_rate returns)⌋
    kelly_feasibility :=
      decide (calculate_required_trades_for_kelly (kelly_win_rate returns) ≤
        (returns.length : ℚ)) }

lemma mean_pos {l : List ℚ} (hne : l ≠ []) (h : ∀ x ∈ l, 0 < x) : 0 < mean l := by
  have hs : 0 < l.sum := List.sum_pos l h hne
  have hl : 0 < (l.length : ℚ) := by
    have : 0 < l.length := List.length_pos.mpr hne
    exact_mod_cast this
  exact div_pos hs hl

lemma sum_neg_of_forall (l : List ℚ) (hne : l ≠ []) (h : ∀ x ∈ l, x < 0) :
    l.sum < 0 := by
  induction l with
  | nil => simp at hne
  | cons x xs ih =>
      rcases List.eq_nil_or_concat xs with h1 | _
      · subst h1
        simpa using h x (List.mem_cons_self _ _)
      · have hxs : xs ≠ [] := by
          intro hc
          subst hc
          simp_all
        have h2 := ih hxs (fun y hy => h y (List.mem_cons_of_mem _ hy))
        have h3 := h x (List.mem_cons_self _ _)
        simp only [List.sum_cons]
        linarith

lemma mean_neg {l : List ℚ} (hne : l ≠ []) (h : ∀ x ∈ l, x < 0) : mean l < 0 := by
  have hs : l.sum < 0 := sum_neg_of_forall l hne h
  have hl : 0 < (l.length : ℚ) := by
    have : 0 < l.length := List.length_pos.mpr hne
    exact_mod_cast this
  exact div_neg_of_neg_of_pos hs hl

/-- C5 (amended).  With at least one winning and one losing trade the
Kelly analysis computes `b = mean_win / |mean_loss|` and
`f = (p·b − q)/b`, where `p` is the winning fraction and `q` the
strictly-losing fraction (which equals `1 − p` only when no trade has
return exactly 0); reported full and recommended (half) Kelly are those
values in percent clamped below at 0.  On the spec's example (win rate
0.6, average win 2, average loss 1) full Kelly is 40 % and recommended
Kelly 20 %. -/
theorem calculate_kelly_formula (returns : List ℚ)
    (hw : kelly_wins returns ≠ []) (hl : kelly_losses returns ≠ []) :
    (calculate_kelly returns).full_kelly_pct =
      max 0 ((kelly_win_rate returns *
          (mean (kelly_wins returns) / |mean (kelly_losses returns)|) -
        kelly_loss_rate returns) /
          (mean (kelly_wins returns) / |mean (kelly_losses returns)|) * 100) ∧
    (calculate_kelly returns).recommended_kelly_pct =
      max 0 ((kelly_win_rate returns *
          (mean (kelly_wins returns) / |mean (kelly_losses returns)|) -
        kelly_loss_rate returns) /
          (mean (kelly_wins returns) / |mean (kelly_losses returns)|) / 2 * 100) ∧
    kelly_win_rate returns = ((kelly_wins returns).length : ℚ) / returns.length ∧
    kelly_loss_rate returns = ((kelly_losses returns).length : ℚ) / returns.length ∧
    (calculate_kelly [2, 2, 2, 2, 2, 2, -1, -1, -1, -1]).full_kelly_pct = 40 ∧
    (calculate_kelly [2, 2, 2, 2, 2, 2, -1, -1, -1, -1]).recommended_kelly_pct = 20 := by
  have hwin_pos : 0 < mean (kelly_wins returns) :=
    mean_pos hw (fun x hx => by
      have := List.mem_filter.mp hx
      simpa using this.2)
  have hloss_neg : mean (kelly_losses returns) < 0 :=
    mean_neg hl (fun x hx => by
      have := List.mem_filter.mp hx
      simpa using this.2)
  have hwlen : 0 < (kelly_wins returns).length := List.length_pos.mpr hw
  have hllen : 0 < (kelly_losses returns).length := List.length_pos.mpr hl
  have hrlen : 0 < returns.length := by
    have : (kelly_wins returns).length ≤ returns.length := by
      simpa [kelly_wins] using List.length_filter_le _ returns
    omega
  have havg_win : kelly_avg_win returns = mean (kelly_wins returns) := by
    rw [kelly_avg_win, if_pos hwlen]
  have havg_loss : kelly_avg_loss returns = |mean (kelly_losses returns)| := by
    rw [kelly_avg_loss, if_pos hllen]
  have hloss_pos : 0 < |mean (kelly_losses returns)| := abs_pos.mpr (ne_of_lt hloss_neg)
  have hb_pos : 0 < mean (kelly_wins returns) / |mean (kelly_losses returns)| :=
    div_pos hwin_pos hloss_pos
  have hkp : kelly_pct returns =
      (kelly_win_rate returns *
          (mean (kelly_wins returns) / |mean (kelly_losses returns)|) -
        kelly_loss_rate returns) /
          (mean (kelly_wins returns) / |mean (kelly_losses returns)|) := by
    rw [kelly_pct, havg_loss, havg_win, if_pos hloss_pos, if_pos hb_pos]
  refine ⟨?_, ?_, ?_, ?_, ?_, ?_⟩
  · show max 0 (kelly_pct returns * 100) = _
    rw [hkp]
  · show max 0 (kelly_pct returns / 2 * 100) = _
    rw [hkp]
  · rw [kelly_win_rate, if_pos hrlen]
  · rw [kelly_loss_rate, if_pos hrlen]
  · show max 0 (kelly_pct [2, 2, 2, 2, 2, 2, -1, -1, -1, -1] * 100) = 40
    have he : kelly_pct [2, 2, 2, 2, 2, 2, -1, -1, -1, -1] = 2/5 := by
      norm_num [kelly_pct, kelly_avg_win, kelly_avg_loss, kelly_win_rate, kelly_loss_rate,
        kelly_wins, kelly_losses, mean, List.filter]
    rw [he]
    norm_num [max_def]
  · show max 0 (kelly_pct [2, 2, 2, 2, 2, 2, -1, -1, -1, -1] / 2 * 100) = 20
    have he : kelly_pct [2, 2, 2, 2, 2, 2, -1, -1, -1, -1] = 2/5 := by
      norm_num [kelly_pct, kelly_avg_win, kelly_avg_loss, kelly_win_rate, kelly_loss_rate,
        kelly_wins, kelly_losses, mean, List.filter]
    rw [he]
    norm_num [max_def]

/-- Witness for C5: the spec's 60 %-win-rate example table. -/
theorem calculate_kelly_formula_witness :
    kelly_wins [(2 : ℚ), 2, 2, 2, 2, 2, -1, -1, -1, -1] ≠ [] ∧
    kelly_losses [(2 : ℚ), 2, 2, 2, 2, 2, -1, -1, -1, -1] ≠ [] ∧
    (calculate_kelly [(2 : ℚ), 2, 2, 2, 2, 2, -1, -1, -1, -1]).full_kelly_pct = 40 :=
  ⟨by norm_num [kelly_wins, List.filter]; simp, by norm_num [kelly_losses, List.filter]; simp,
    (calculate_kelly_formula [(2 : ℚ), 2, 2, 2, 2, 2, -1, -1, -1, -1]
      (by norm_num [kelly_wins, List.filter]; simp)
      (by norm_num [kelly_losses, List.filter]; simp)).2.2.2.2.1⟩

/-- Counterexample for C5 as stated: on the table
`[2 %, 2 %, −1 %, 0 %]` (one zero-return trade) the code returns full
Kelly 37.5 %, while the claimed formula with `q = 1 − p` (p = 1/2,
b = 2) gives 25 %. -/
theorem calculate_kelly_q_counterexample :
    (calculate_kelly [(2 : ℚ), 2, -1, 0]).full_kelly_pct = 75/2 ∧
    max 0 ((((1 : ℚ)/2) * 2 - (1 - 1/2)) / 2 * 100) = 25 ∧
    (calculate_kelly [(2 : ℚ), 2, -1, 0]).full_kelly_pct ≠
      max 0 ((((1 : ℚ)/2) * 2 - (1 - 1/2)) / 2 * 100) := by
  have he : kelly_pct [(2 : ℚ), 2, -1, 0] = 3/8 := by
    norm_num [kelly_pct, kelly_avg_win, kelly_avg_loss, kelly_win_rate, kelly_loss_rate,
      kelly_wins, kelly_losses, mean, List.filter]
  have h1 : (calculate_kelly [(2 : ℚ), 2, -1, 0]).full_kelly_pct = 75/2 := by
    show max 0 (kelly_pct [(2 : ℚ), 2, -1, 0] * 100) = 75/2
    rw [he]
    norm_num [max_def]
  have h2 : max (0 : ℚ) ((((1 : ℚ)/2) * 2 - (1 - 1/2)) / 2 * 100) = 25 := by
    norm_num [max_def]
  refine ⟨h1, h2, ?_⟩
  rw [h1, h2]
  norm_num

/-! ## Statistical Test Battery (`src/validators/statistics.py`)

`StatisticalTester._wilson_ci`.  The source computes
`z = stats.norm.ppf((1 + confidence_level) / 2)` (non-negative for any
confidence level in (0,1)) and
`np.sqrt(p_hat*(1-p_hat)/n + z**2/(4*n**2))`; `z` and the square-root
value `s` enter the embedding as parameters, `s` characterised by its
defining equation `s ≥ 0 ∧ s² = radicand`. -/


def wilson_ci (wins n : ℕ) (z s : ℚ) : ℚ × ℚ :=
  let p_hat : ℚ := if 0 < n then (wins : ℚ) / n else 0
  let denominator : ℚ := 1 + z^2 / n
  let center : ℚ := (p_hat + z^2 / (2 * n)) / denominator
  let spread : ℚ := z * s / denominator
  (max 0 (center - spread), min 1 (center + spread))

/-- C8.  For `n ≥ 1`, `0 ≤ wins ≤ n` and any non-negative normal
quantile `z`, the Wilson interval satisfies
`0 ≤ lower ≤ wins/n ≤ upper ≤ 1` (hence `lower ≤ upper`). -/
theorem wilson_ci_bounds (wins n : ℕ) (z s : ℚ)
    (hn : 1 ≤ n) (hwn : wins ≤ n) (hz : 0 ≤ z) (hs : 0 ≤ s)
    (hs2 : s^2 = ((wins : ℚ)/n) * (1 - (wins : ℚ)/n) / n + z^2 / (4 * n^2)) :
    0 ≤ (wilson_ci wins n z s).1 ∧
    (wilson_ci wins n z s).1 ≤ (wins : ℚ)/n ∧
    ((wins : ℚ)/n) ≤ (wilson_ci wins n z s).2 ∧
    (wilson_ci wins n z s).2 ≤ 1 ∧
    (wilson_ci wins n z s).1 ≤ (wilson_ci wins n z s).2 := by
  have hN : (0 : ℚ) < n := by exact_mod_cast hn
  have hN0 : (n : ℚ) ≠ 0 := ne_of_gt hN
  set p : ℚ := (wins : ℚ) / n with hp
  have hp0 : 0 ≤ p := by positivity
  have hp1 : p ≤ 1 := by
    rw [hp, div_le_one hN]
    exact_mod_cast hwn
  set d : ℚ := 1 + z^2 / n with hd
  have hdpos : (0 : ℚ) < d := by positivity
  have hkey : z^2 / (2 * n) ≤ z * s := by
    have h2 : 0 ≤ p * (1 - p) / n := by
      have : 0 ≤ p * (1 - p) := mul_nonneg hp0 (by linarith)
      positivity
    have h1 : (z / (2 * n))^2 ≤ s^2 := by
      rw [hs2]
      have h3 : (z / (2 * n))^2 = z^2 / (4 * n^2) := by
        rw [div_pow]
        congr 1
        ring
      rw [h3]
      linarith
    have h4 : z / (2 * n) ≤ s := by
      nlinarith [sq_nonneg (s - z / (2 * n)), sq_nonneg (s + z / (2 * n))]
    calc z^2 / (2 * n) = z * (z / (2 * n)) := by ring
    _ ≤ z * s := mul_le_mul_of_nonneg_left h4 hz
  have hlo : (wilson_ci wins n z s).1 = max 0 ((p + z^2 / (2 * n)) / d - z * s / d) := by
    simp only [wilson_ci, if_pos (by exact_mod_cast hn : 0 < n)]
  have hhi : (wilson_ci wins n z s).2 = min 1 ((p + z^2 / (2 * n)) / d + z * s / d) := by
    simp only [wilson_ci, if_pos (by exact_mod_cast hn : 0 < n)]
  have hexp : p * d = p + p * z^2 / n := by rw [hd]; field_simp; ring
  have hcs_le : (p + z^2 / (2 * n)) / d - z * s / d ≤ p := by
    rw [div_sub_div_same, div_le_iff₀ hdpos, hexp]
    have h5 : 0 ≤ p * z^2 / n := by positivity
    linarith
  have hcs_ge : p ≤ (p + z^2 / (2 * n)) / d + z * s / d := by
    rw [div_add_div_same, le_div_iff₀ hdpos, hexp]
    have h6 : p * z^2 / n ≤ z^2 / n := by
      rw [div_le_div_iff_of_pos_right hN]
      nlinarith [sq_nonneg z]
    have h7 : z^2 / n = z^2 / (2 * n) + z^2 / (2 * n) := by ring
    linarith
  refine ⟨?_, ?_, ?_, ?_, ?_⟩
  · rw [hlo]; exact le_max_left _ _
  · rw [hlo]; exact max_le hp0 hcs_le
  · rw [hhi]; exact le_min hp1 hcs_ge
  · rw [hhi]; exact min_le_left _ _
  · rw [hlo, hhi]
    exact le_trans (max_le hp0 hcs_le) (le_min hp1 hcs_ge)

/-- Witness for C8 at wins = 1, n = 2, z = 1/2 (the radicand is then
(3/8)², so the square root is exactly 3/8). -/
theorem wilson_ci_bounds_witness :
    1 ≤ 2 ∧ 1 ≤ 2 ∧ (0 : ℚ) ≤ 1/2 ∧ (0 : ℚ) ≤ 3/8 ∧
    (((3 : ℚ)/8)^2 = ((1 : ℚ)/2) * (1 - (1 : ℚ)/2) / 2 + ((1 : ℚ)/2)^2 / (4 * 2^2)) ∧
    (0 ≤ (wilson_ci 1 2 (1/2) (3/8)).1 ∧
      (wilson_ci 1 2 (1/2) (3/8)).1 ≤ ((1 : ℕ) : ℚ)/((2 : ℕ) : ℚ)) :=
  ⟨by norm_num, by norm_num, by norm_num, by norm_num, by norm_num,
    ((wilson_ci_bounds 1 2 (1/2) (3/8) (by norm_num) (by norm_num) (by norm_num)
      (by norm_num) (by push_cast; norm_num)).1),
    ((wilson_ci_bounds 1 2 (1/2) (3/8) (by norm_num) (by norm_num) (by norm_num)
      (by norm_num) (by push_cast; norm_num)).2.1)⟩

/-! ### `StatisticalTester._calculate_required_sample_size` and
`test_win_rate_confidence`

numpy float division by zero does not raise: it produces `±inf` (or
`nan` for `0.0/0.0`) with only a warning.  Python `int()` then raises
`OverflowError` on `±inf` and `ValueError` on `nan`.  These semantics
are modelled with a tagged value type. -/

/-- A numpy float64 value: finite, ±infinity, or nan. -/
inductive NpVal where
  | fin (q : ℚ)
  | inf
  | ninf
  | nan
  deriving Repr, DecidableEq

/-- Python exception kinds raised by `int(...)` on non-finite floats. -/
inductive PyErr where
  | overflowError
  | valueError
  deriving Repr, DecidableEq

/-- numpy division of two finite float64 values. -/
def npDivFin (a b : ℚ) : NpVal :=
  if b = 0 then (if 0 < a then .inf else if a < 0 then .ninf else .nan)
  else .fin (a / b)

/-- Python `max(0, x)` on a float64: comparisons with `nan` are false,
so `max(0, nan) = 0` and `max(0, -inf) = 0`. -/
def npMax0 : NpVal → NpVal
  | .fin q => .fin (max 0 q)
  | .inf => .inf
  | .ninf => .fin 0
  | .nan => .fin 0

/-- Python `int(x)` on a float64 value: truncation toward zero on
finite values, `OverflowError` on ±inf, `ValueError` on nan. -/
def pyInt : NpVal → Except PyErr ℤ
  | .fin q => .ok (q.num / (q.den : ℤ))
  | .inf => .error .overflowError
  | .ninf => .error .overflowError
  | .nan => .error .valueError

/-- `StatisticalTester._calculate_required_sample_size`: the normal
quantiles `z_alpha = norm.ppf(1 - alpha/2)` and `z_beta = norm.ppf(1 - beta)`
enter as parameters; the division by `(p1 - p2)**2` is NOT guarded in
the source — numpy semantics apply. -/
def calculate_required_sample_size (z_alpha z_beta p1 p2 : ℚ) : NpVal :=
  npMax0 (npDivFin
    ((z_alpha + z_beta)^2 * (2 * ((p1 + p2)/2) * (1 - (p1 + p2)/2)))
    ((p1 - p2)^2))

/-- Result record of `test_win_rate_confidence` (the fields relevant to
the embedding; `p_value` and the z-quantities are scipy values passed
through). -/
structure WinRateStats where
  observed_win_rate : ℚ
  wins : ℕ
  losses : ℕ
  total_trades : ℕ
  p_value : ℚ
  confidence_interval_lower : ℚ
  confidence_interval_upper : ℚ
  z_score : ℚ
  required_trades_for_significance : ℤ
  deriving Repr, DecidableEq

/-- `StatisticalTester.test_win_rate_confidence`.  The scipy values
(`binom.sf` based p-value `pval`, normal quantile `zConf`, the Wilson
square root `sWilson`, the standard-error square root `seVal`, and the
two sample-size quantiles `z_alpha`, `z_beta`) are parameters.  The
result dict is only produced if `int(required_trades)` does not raise;
a non-finite required sample size escapes as the corresponding Python
exception, exactly as in the source. -/
def test_win_rate_confidence (returns : List ℚ)
    (pval zConf sWilson seVal z_alpha z_beta : ℚ) : Except PyErr WinRateStats :=
  let wins := (returns.filter fun r => decide (0 < r)).length
  let losses := (returns.filter fun r => decide (r ≤ 0)).length
  let n := returns.length
  let win_rate : ℚ := if 0 < n then (wins : ℚ) / n else 0
  let ci := wilson_ci wins n zConf sWilson
  let z_score : ℚ := if 0 < seVal then (win_rate - 1/2) / seVal else 0
  match pyInt (calculate_required_sample_size z_alpha z_beta win_rate (1/2)) with
  | .error e => .error e
  | .ok rt =>
      .ok { observed_win_rate := win_rate
            wins := wins
            losses := losses
            total_trades := n
            p_value := pval
            confidence_interval_lower := ci.1
            confidence_interval_upper := ci.2
            z_score := z_score
            required_trades_for_significance := rt }

/-- C3 (code bug).  At observed win rate exactly 1/2 the unguarded
division `(p1 - p2)**2` is by zero: numpy yields `+inf` (no
division-by-zero exception), and `int(inf)` in
`test_win_rate_confidence` then raises `OverflowError`, so the win-rate
analysis faults instead of returning ∞ or a sentinel.  Shown on the
two-trade table `[1 %, −1 %]` for any normal quantiles with
`z_alpha + z_beta > 0` (the actual scipy values are ≈ 1.96 and ≈ 0.84). -/
theorem test_win_rate_confidence_faults_at_half
    (pval zConf sWilson seVal z_alpha z_beta : ℚ) (hz : 0 < z_alpha + z_beta) :
    calculate_required_sample_size z_alpha z_beta (1/2) (1/2) = NpVal.inf ∧
    test_win_rate_confidence [1, -1] pval zConf sWilson seVal z_alpha z_beta =
      Except.error PyErr.overflowError := by
  have hnum : 0 < (z_alpha + z_beta)^2 *
      (2 * (((1 : ℚ)/2 + 1/2)/2) * (1 - ((1 : ℚ)/2 + 1/2)/2)) := by
    have h1 : 0 < (z_alpha + z_beta)^2 := by positivity
    nlinarith
  have hreq : calculate_required_sample_size z_alpha z_beta (1/2) (1/2) = NpVal.inf := by
    rw [calculate_required_sample_size, npDivFin]
    rw [if_pos (by norm_num : ((1 : ℚ)/2 - 1/2)^2 = 0), if_pos hnum]
    rfl
  refine ⟨hreq, ?_⟩
  have hwr : (if 0 < ([1, -1] : List ℚ).length then
      ((([1, -1] : List ℚ).filter fun r => decide (0 < r)).length : ℚ) /
        ([1, -1] : List ℚ).length else 0) = 1/2 := by
    norm_num [List.filter]
  show (match pyInt (calculate_required_sample_size z_alpha z_beta
      (if 0 < ([1, -1] : List ℚ).length then
        ((([1, -1] : List ℚ).filter fun r => decide (0 < r)).length : ℚ) /
          ([1, -1] : List ℚ).length else 0) (1/2)) with
    | .error e => Except.error e
    | .ok rt => _) = Except.error PyErr.overflowError
  rw [hwr, hreq]
  rfl

/-- Witness for C3 at the concrete quantiles z_alpha = 2, z_beta = 1. -/
theorem test_win_rate_confidence_faults_at_half_witness :
    (0 : ℚ) < 2 + 1 ∧
    test_win_rate_confidence [1, -1] 1 1 1 1 2 1 = Except.error PyErr.overflowError :=
  ⟨by norm_num,
    (test_win_rate_confidence_faults_at_half 1 1 1 1 2 1 (by norm_num)).2⟩

/-! ## Comprehensive Evaluator (`src/analysis/validators/comprehensive.py`)

The evaluator reads a handful of scalar statistics out of the merged
validator results, each behind an `if key in results` presence check;
a missing dictionary level is modelled as `Option.none`. -/

/-- Scalar inputs that `check_disqualification_criteria` and
`generate_final_score` read from the merged validator results. -/
structure ValidatorInputs where
  p_value : Option ℚ
  sharpe_ratio : Option ℚ
  max_consecutive_losses : Option ℕ
  losing_avg_return : Option ℚ
  risk_reward_ratio : Option ℚ
  negative_months : Option ℕ
  monthly_consistency : Option ℚ
  profit_factor : Option ℚ
  capital_shortage : Option (Bool × ℚ)
  r_squared : Option ℚ
  deriving Repr, DecidableEq

/-- All validator results missing (every sub-analysis failed or was
absent). -/
def emptyInputs : ValidatorInputs :=
  { p_value := none, sharpe_ratio := none, max_consecutive_losses := none
    losing_avg_return := none, risk_reward_ratio := none, negative_months := none
    monthly_consistency := none, profit_factor := none, capital_shortage := none
    r_squared := none }

/-- `self.win_rate` of the evaluator:
`(trades_df['return_pct'] > 0).sum() / len(trades_df)`. -/
def comp_win_rate (returns : List ℚ) : ℚ :=
  if 0 < returns.length then
    ((returns.filter fun r => decide (0 < r)).length : ℚ) / returns.length
  else 0

/-- `np.cumprod`. -/
def cumprod (l : List ℚ) : List ℚ := (l.scanl (· * ·) 1).tail

/-- Helper for `np.maximum.accumulate`. -/
def runmax : ℚ → List ℚ → List ℚ
  | _, [] => []
  | m, x :: xs => max m x :: runmax (max m x) xs

/-- `np.maximum.accumulate`. -/
def running_max (l : List ℚ) : List ℚ :=
  match l with
  | [] => []
  | x :: xs => x :: runmax x xs

/-- The drawdown series of `check_disqualification_criteria`:
`(curve - running_max) / running_max` where `running_max > 0`, else 0. -/
def drawdown_series (curve : List ℚ) : List ℚ :=
  (curve.zip (running_max curve)).map (fun x => if 0 < x.2 then (x.1 - x.2) / x.2 else 0)

/-- The Tier-1 maximum drawdown: the capital curve is built from the
cumulative-return column when present, else by compounding
`return_pct`, and the most negative running-max-relative drawdown is
taken. -/
def disq_max_drawdown (initial_capital : ℚ) (returns : List ℚ)
    (cumPct : Option (List ℚ)) : ℚ :=
  let capital_curve :=
    match cumPct with
    | some cum => cum.map (fun c => initial_capital * (1 + c / 100))
    | none => (cumprod (returns.map (fun r => 1 + r / 100))).map (initial_capital * ·)
  npMin (drawdown_series capital_curve)

/-- Disqualification tiers. -/
inductive Tier where
  | tier1
  | tier2
  | tier3
  | allClear
  deriving Repr, DecidableEq

/-- Verdict status: `'❌ NO-GO'`, `'✅ GO (조건부)'`, `'✅ GO (강력 추천)'`. -/
inductive Status where
  | noGo
  | goConditional
  | goStrong
  deriving Repr, DecidableEq

/-- The triggering reasons, one tag per source message. -/
inductive Reason where
  | t1_few_trades
  | t1_low_win_rate
  | t1_max_drawdown
  | t1_short_period
  | t2_p_value
  | t2_sharpe
  | t2_consecutive_losses
  | t2_avg_loss
  | t3_daily_over
  | t3_monthly_under
  | t3_risk_reward
  | t3_negative_months
  | t3_monthly_cv
  deriving Repr, DecidableEq

/-- Whether a reason tag belongs to Tier 1. -/
def Reason.isTier1 : Reason → Bool
  | .t1_few_trades | .t1_low_win_rate | .t1_max_drawdown | .t1_short_period => true
  | _ => false

/-- Whether a reason tag belongs to Tier 2. -/
def Reason.isTier2 : Reason → Bool
  | .t2_p_value | .t2_sharpe | .t2_consecutive_losses | .t2_avg_loss => true
  | _ => false

/-- Whether a reason tag belongs to Tier 3. -/
def Reason.isTier3 : Reason → Bool
  | .t3_daily_over | .t3_monthly_under | .t3_risk_reward | .t3_negative_months
  | .t3_monthly_cv => true
  | _ => false

/-- The `tier1_reasons` list, in source order. -/
def tier1_reasons (total_trades : ℕ) (win_rate max_drawdown : ℚ)
    (total_days : ℤ) : List Reason :=
  (if total_trades < 30 then [Reason.t1_few_trades] else []) ++
  (if win_rate < 1/2 then [Reason.t1_low_win_rate] else []) ++
  (if max_drawdown < -(1/2) then [Reason.t1_max_drawdown] else []) ++
  (if total_days < 180 then [Reason.t1_short_period] else [])

/-- One conditional contribution to a reason list: if the validator
value is present and the condition holds, one tag is appended. -/
def optReason {α : Type} (o : Option α) (c : α → Prop) [DecidablePred c]
    (x : Reason) : List Reason :=
  match o with
  | some p => if c p then [x] else []
  | none => []

/-- The `tier2_reasons` list, in source order; a missing validator key
contributes nothing. -/
def tier2_reasons (v : ValidatorInputs) : List Reason :=
  optReason v.p_value (fun p => 1/20 ≤ p) Reason.t2_p_value ++
  optReason v.sharpe_ratio (fun s => s < 1) Reason.t2_sharpe ++
  optReason v.max_consecutive_losses (fun m => 7 ≤ m) Reason.t2_consecutive_losses ++
  optReason v.losing_avg_return (fun a => 3 < |a|) Reason.t2_avg_loss

/-- `daily_avg = total_trades / total_days` (0 when no days). -/
def daily_avg (total_trades : ℕ) (total_days : ℤ) : ℚ :=
  if 0 < total_days then (total_trades : ℚ) / (total_days : ℚ) else 0

/-- `monthly_avg = total_trades / (total_days / 30)` (0 when no days). -/
def monthly_avg (total_trades : ℕ) (total_days : ℤ) : ℚ :=
  if 0 < total_days then (total_trades : ℚ) / ((total_days : ℚ) / 30) else 0

/-- The `tier3_warnings` list, in source order. -/
def tier3_warnings (total_trades : ℕ) (total_days : ℤ) (v : ValidatorInputs) :
    List Reason :=
  (if 1 < daily_avg total_trades total_days then [Reason.t3_daily_over] else []) ++
  (if monthly_avg total_trades total_days < 2 then [Reason.t3_monthly_under] else []) ++
  optReason v.risk_reward_ratio (fun rr => rr < 3/2 ∧ 0 < rr) Reason.t3_risk_reward ++
  optReason v.negative_months (fun nm => 5 ≤ nm) Reason.t3_negative_months ++
  optReason v.monthly_consistency (fun cv => 2 < cv) Reason.t3_monthly_cv

/-- The disqualification verdict record. -/
structure Disqualification where
  status : Status
  tier : Tier
  reasons : List Reason
  total_trades : ℕ
  win_rate : ℚ
  max_drawdown : ℚ
  trading_period_days : ℤ
  deriving Repr, DecidableEq

/-- `ComprehensiveEvaluator.check_disqualification_criteria`. -/
def check_disqualification_criteria (returns : List ℚ) (total_days : ℤ)
    (initial_capital : ℚ) (cumPct : Option (List ℚ)) (v : ValidatorInputs) :
    Disqualification :=
  let total_trades := returns.length
  let win_rate := comp_win_rate returns
  let md := disq_max_drawdown initial_capital returns cumPct
  let t1 := tier1_reasons total_trades win_rate md total_days
  let t2 := tier2_reasons v
  let t3 := tier3_warnings total_trades total_days v
  if t1 ≠ [] then
    { status := .noGo, tier := .tier1, reasons := t1, total_trades := total_trades
      win_rate := win_rate * 100, max_drawdown := md, trading_period_days := total_days }
  else if t2 ≠ [] then
    { status := .noGo, tier := .tier2, reasons := t2, total_trades := total_trades
      win_rate := win_rate * 100, max_drawdown := md, trading_period_days := total_days }
  else if t3 ≠ [] then
    { status := .goConditional, tier := .tier3, reasons := t3, total_trades := total_trades
      win_rate := win_rate * 100, max_drawdown := md, trading_period_days := total_days }
  else
    { status := .goStrong, tier := .allClear, reasons := [], total_trades := total_trades
      win_rate := win_rate * 100, max_drawdown := md, trading_period_days := total_days }

lemma mem_ite_singleton {c : Prop} [Decidable c] {r x : Reason}
    (h : r ∈ (if c then [x] else [])) : r = x := by
  split at h
  · simpa using h
  · simp at h

lemma append_ne_nil_iff {α : Type} (a b : List α) :
    a ++ b ≠ [] ↔ a ≠ [] ∨ b ≠ [] := by
  rw [ne_eq, List.append_eq_nil, not_and_or]

lemma ite_singleton_ne_nil {c : Prop} [Decidable c] {x : Reason} :
    (if c then [x] else []) ≠ ([] : List Reason) ↔ c := by
  split <;> simp_all

lemma optReason_ne_nil {α : Type} (o : Option α) (c : α → Prop) [DecidablePred c]
    (x : Reason) :
    optReason o c x ≠ [] ↔ ∃ p, o = some p ∧ c p := by
  rw [optReason.eq_def]
  cases o with
  | none => simp
  | some p => by_cases h : c p <;> simp [h]

lemma mem_optReason {α : Type} {o : Option α} {c : α → Prop} [DecidablePred c]
    {x r : Reason} (h : r ∈ optReason o c x) : r = x := by
  rw [optReason.eq_def] at h
  cases o with
  | none => simp at h
  | some p => exact mem_ite_singleton h

lemma tier1_reasons_ne_nil_iff (n : ℕ) (wr md : ℚ) (d : ℤ) :
    tier1_reasons n wr md d ≠ [] ↔
      (n < 30 ∨ wr < 1/2 ∨ md < -(1/2) ∨ d < 180) := by
  rw [tier1_reasons, append_ne_nil_iff, append_ne_nil_iff, append_ne_nil_iff,
    ite_singleton_ne_nil, ite_singleton_ne_nil, ite_singleton_ne_nil, ite_singleton_ne_nil]
  tauto

lemma tier1_reasons_tags (n : ℕ) (wr md : ℚ) (d : ℤ) :
    ∀ r ∈ tier1_reasons n wr md d, r.isTier1 = true := by
  intro r hr
  rw [tier1_reasons] at hr
  simp only [List.mem_append] at hr
  rcases hr with ((h | h) | h) | h <;>
    rw [mem_ite_singleton h] <;> rfl

lemma tier2_reasons_ne_nil_iff (v : ValidatorInputs) :
    tier2_reasons v ≠ [] ↔
      ((∃ p, v.p_value = some p ∧ 1/20 ≤ p) ∨
       (∃ s, v.sharpe_ratio = some s ∧ s < 1) ∨
       (∃ m, v.max_consecutive_losses = some m ∧ 7 ≤ m) ∨
       (∃ a, v.losing_avg_return = some a ∧ 3 < |a|)) := by
  rw [tier2_reasons, append_ne_nil_iff, append_ne_nil_iff, append_ne_nil_iff,
    optReason_ne_nil, optReason_ne_nil, optReason_ne_nil, optReason_ne_nil]
  simp only [or_assoc]

lemma tier2_reasons_tags (v : ValidatorInputs) :
    ∀ r ∈ tier2_reasons v, r.isTier2 = true := by
  intro r hr
  rw [tier2_reasons] at hr
  simp only [List.mem_append] at hr
  rcases hr with ((h | h) | h) | h <;>
    rw [mem_optReason h] <;> rfl

lemma tier3_warnings_ne_nil_iff (n : ℕ) (d : ℤ) (v : ValidatorInputs) :
    tier3_warnings n d v ≠ [] ↔
      (1 < daily_avg n d ∨ monthly_avg n d < 2 ∨
       (∃ rr, v.risk_reward_ratio = some rr ∧ rr < 3/2 ∧ 0 < rr) ∨
       (∃ nm, v.negative_months = some nm ∧ 5 ≤ nm) ∨
       (∃ cv, v.monthly_consistency = some cv ∧ 2 < cv)) := by
  rw [tier3_warnings, append_ne_nil_iff, append_ne_nil_iff, append_ne_nil_iff,
    append_ne_nil_iff, ite_singleton_ne_nil, ite_singleton_ne_nil,
    optReason_ne_nil, optReason_ne_nil, optReason_ne_nil]
  simp only [or_assoc]

lemma tier3_warnings_tags (n : ℕ) (d : ℤ) (v : ValidatorInputs) :
    ∀ r ∈ tier3_warnings n d v, r.isTier3 = true := by
  intro r hr
  rw [tier3_warnings] at hr
  simp only [List.mem_append] at hr
  rcases hr with (((h | h) | h) | h) | h
  · rw [mem_ite_singleton h]; rfl
  · rw [mem_ite_singleton h]; rfl
  · rw [mem_optReason h]; rfl
  · rw [mem_optReason h]; rfl
  · rw [mem_optReason h]; rfl

/-- The spec's Tier-1 condition, spelled out. -/
def tier1_condition (returns : List ℚ) (total_days : ℤ) (initial_capital : ℚ)
    (cumPct : Option (List ℚ)) : Prop :=
  returns.length < 30 ∨ comp_win_rate returns < 1/2 ∨
  disq_max_drawdown initial_capital returns cumPct < -(1/2) ∨ total_days < 180

/-- The spec's Tier-2 condition, spelled out. -/
def tier2_condition (v : ValidatorInputs) : Prop :=
  (∃ p, v.p_value = some p ∧ 1/20 ≤ p) ∨
  (∃ s, v.sharpe_ratio = some s ∧ s < 1) ∨
  (∃ m, v.max_consecutive_losses = some m ∧ 7 ≤ m) ∨
  (∃ a, v.losing_avg_return = some a ∧ 3 < |a|)

/-- The spec's Tier-3 condition, spelled out. -/
def tier3_condition (total_trades : ℕ) (total_days : ℤ) (v : ValidatorInputs) : Prop :=
  1 < daily_avg total_trades total_days ∨ monthly_avg total_trades total_days < 2 ∨
  (∃ rr, v.risk_reward_ratio = some rr ∧ rr < 3/2 ∧ 0 < rr) ∨
  (∃ nm, v.negative_months = some nm ∧ 5 ≤ nm) ∨
  (∃ cv, v.monthly_consistency = some cv ∧ 2 < cv)

/-- The ten-trade example table of the spec: triggers Tier 1 (10 < 30
trades) and several Tier 3 conditions. -/
def exampleTable : List ℚ := [1, 1, 1, 1, 1, 1, 1, 1, 1, 1]

/-- A flat cumulative-return column for the example table. -/
def exampleCum : List ℚ := [0, 0, 0, 0, 0, 0, 0, 0, 0, 0]

/-- Validator inputs for the example: a win/loss ratio below 1.5 and
six negative months, both Tier-3 conditions. -/
def exampleInputs : ValidatorInputs :=
  { emptyInputs with risk_reward_ratio := some 1, negative_months := some 6 }

lemma check_disq_branch1 (returns : List ℚ) (total_days : ℤ) (initial_capital : ℚ)
    (cumPct : Option (List ℚ)) (v : ValidatorInputs)
    (h1 : tier1_reasons returns.length (comp_win_rate returns)
      (disq_max_drawdown initial_capital returns cumPct) total_days ≠ []) :
    check_disqualification_criteria returns total_days initial_capital cumPct v =
      { status := .noGo, tier := .tier1
        reasons := tier1_reasons returns.length (comp_win_rate returns)
          (disq_max_drawdown initial_capital returns cumPct) total_days
        total_trades := returns.length, win_rate := comp_win_rate returns * 100
        max_drawdown := disq_max_drawdown initial_capital returns cumPct
        trading_period_days := total_days } := by
  simp only [check_disqualification_criteria]
  rw [if_pos h1]

lemma check_disq_branch2 (returns : List ℚ) (total_days : ℤ) (initial_capital : ℚ)
    (cumPct : Option (List ℚ)) (v : ValidatorInputs)
    (h1 : tier1_reasons returns.length (comp_win_rate returns)
      (disq_max_drawdown initial_capital returns cumPct) total_days = [])
    (h2 : tier2_reasons v ≠ []) :
    check_disqualification_criteria returns total_days initial_capital cumPct v =
      { status := .noGo, tier := .tier2, reasons := tier2_reasons v
        total_trades := returns.length, win_rate := comp_win_rate returns * 100
        max_drawdown := disq_max_drawdown initial_capital returns cumPct
        trading_period_days := total_days } := by
  simp only [check_disqualification_criteria]
  rw [if_neg (by simp [h1]), if_pos h2]

lemma check_disq_branch3 (returns : List ℚ) (total_days : ℤ) (initial_capital : ℚ)
    (cumPct : Option (List ℚ)) (v : ValidatorInputs)
    (h1 : tier1_reasons returns.length (comp_win_rate returns)
      (disq_max_drawdown initial_capital returns cumPct) total_days = [])
    (h2 : tier2_reasons v = [])
    (h3 : tier3_warnings returns.length total_days v ≠ []) :
    check_disqualification_criteria returns total_days initial_capital cumPct v =
      { status := .goConditional, tier := .tier3
        reasons := tier3_warnings returns.length total_days v
        total_trades := returns.length, win_rate := comp_win_rate returns * 100
        max_drawdown := disq_max_drawdown initial_capital returns cumPct
        trading_period_days := total_days } := by
  simp only [check_disqualification_criteria]
  rw [if_neg (by simp [h1]), if_neg (by simp [h2]), if_pos h3]

lemma check_disq_branch4 (returns : List ℚ) (total_days : ℤ) (initial_capital : ℚ)
    (cumPct : Option (List ℚ)) (v : ValidatorInputs)
    (h1 : tier1_reasons returns.length (comp_win_rate returns)
      (disq_max_drawdown initial_capital returns cumPct) total_days = [])
    (h2 : tier2_reasons v = [])
    (h3 : tier3_warnings returns.length total_days v = []) :
    check_disqualification_criteria returns total_days initial_capital cumPct v =
      { status := .goStrong, tier := .allClear, reasons := []
        total_trades := returns.length, win_rate := comp_win_rate returns * 100
        max_drawdown := disq_max_drawdown initial_capital returns cumPct
        trading_period_days := total_days } := by
  simp only [check_disqualification_criteria]
  rw [if_neg (by simp [h1]), if_neg (by simp [h2]), if_neg (by simp [h3])]

lemma check_disq_example :
    check_disqualification_criteria exampleTable 400 50 (some exampleCum)
      exampleInputs =
      { status := .noGo, tier := .tier1, reasons := [Reason.t1_few_trades]
        total_trades := 10, win_rate := 100, max_drawdown := 0
        trading_period_days := 400 } := by
  have hmd0 : disq_max_drawdown 50 exampleTable (some exampleCum) = 0 := by
    norm_num [disq_max_drawdown, exampleTable, exampleCum, drawdown_series,
      running_max, runmax, npMin, List.zip, List.zipWith]
  have hwr1 : comp_win_rate exampleTable = 1 := by
    norm_num [comp_win_rate, exampleTable, List.filter]
  have hlen : exampleTable.length = 10 := rfl
  have ht1 : tier1_reasons exampleTable.length (comp_win_rate exampleTable)
      (disq_max_drawdown 50 exampleTable (some exampleCum)) 400 =
      [Reason.t1_few_trades] := by
    rw [hmd0, hwr1, hlen]
    norm_num [tier1_reasons]
  rw [check_disq_branch1 _ _ _ _ _ (by rw [ht1]; simp), ht1, hwr1, hmd0, hlen]
  norm_num

/-- C1.  The verdict picks exactly one tier by strict precedence
(Tier 1, else Tier 2, else Tier 3 as conditional GO, else All Clear),
its reason list comes only from the chosen tier, NO-GO exactly for
Tiers 1–2, and the reason list is empty exactly on All Clear.  On the
spec's example (10 trades, Tier-3 conditions also firing) the verdict
is Tier 1 with only the Tier-1 reason. -/
theorem check_disqualification_tier_precedence
    (returns : List ℚ) (total_days : ℤ) (initial_capital : ℚ)
    (cumPct : Option (List ℚ)) (v : ValidatorInputs) (_hne : returns ≠ []) :
    ((check_disqualification_criteria returns total_days initial_capital cumPct v).tier =
        Tier.tier1 ↔ tier1_condition returns total_days initial_capital cumPct) ∧
    ((check_disqualification_criteria returns total_days initial_capital cumPct v).tier =
        Tier.tier2 ↔
      (¬ tier1_condition returns total_days initial_capital cumPct ∧ tier2_condition v)) ∧
    ((check_disqualification_criteria returns total_days initial_capital cumPct v).tier =
        Tier.tier3 ↔
      (¬ tier1_condition returns total_days initial_capital cumPct ∧ ¬ tier2_condition v ∧
        tier3_condition returns.length total_days v)) ∧
    ((check_disqualification_criteria returns total_days initial_capital cumPct v).tier =
        Tier.allClear ↔
      (¬ tier1_condition returns total_days initial_capital cumPct ∧ ¬ tier2_condition v ∧
        ¬ tier3_condition returns.length total_days v)) ∧
    ((check_disqualification_criteria returns total_days initial_capital cumPct v).status =
        Status.noGo ↔
      (tier1_condition returns total_days initial_capital cumPct ∨ tier2_condition v)) ∧
    ((check_disqualification_criteria returns total_days initial_capital cumPct v).reasons =
        [] ↔
      (check_disqualification_criteria returns total_days initial_capital cumPct v).tier =
        Tier.allClear) ∧
    ((check_disqualification_criteria returns total_days initial_capital cumPct v).tier =
        Tier.tier1 →
      ∀ r ∈ (check_disqualification_criteria returns total_days initial_capital cumPct
          v).reasons, r.isTier1 = true) ∧
    ((check_disqualification_criteria returns total_days initial_capital cumPct v).tier =
        Tier.tier2 →
      ∀ r ∈ (check_disqualification_criteria returns total_days initial_capital cumPct
          v).reasons, r.isTier2 = true) ∧
    ((check_disqualification_criteria returns total_days initial_capital cumPct v).tier =
        Tier.tier3 →
      ∀ r ∈ (check_disqualification_criteria returns total_days initial_capital cumPct
          v).reasons, r.isTier3 = true) ∧
    (check_disqualification_criteria exampleTable 400 50 (some exampleCum)
        exampleInputs).tier = Tier.tier1 ∧
    (check_disqualification_criteria exampleTable 400 50 (some exampleCum)
        exampleInputs).reasons = [Reason.t1_few_trades] ∧
    (check_disqualification_criteria exampleTable 400 50 (some exampleCum)
        exampleInputs).status = Status.noGo ∧
    tier3_warnings exampleTable.length 400 exampleInputs ≠ [] := by
  have hT1 := tier1_reasons_ne_nil_iff returns.length (comp_win_rate returns)
    (disq_max_drawdown initial_capital returns cumPct) total_days
  have hT2 := tier2_reasons_ne_nil_iff v
  have hT3 := tier3_warnings_ne_nil_iff returns.length total_days v
  have hc1 : tier1_condition returns total_days initial_capital cumPct ↔
      tier1_reasons returns.length (comp_win_rate returns)
        (disq_max_drawdown initial_capital returns cumPct) total_days ≠ [] := by
    rw [tier1_condition, hT1]
  have hc2 : tier2_condition v ↔ tier2_reasons v ≠ [] := by
    rw [tier2_condition, hT2]
  have hc3 : tier3_condition returns.length total_days v ↔
      tier3_warnings returns.length total_days v ≠ [] := by
    rw [tier3_condition, hT3]
  have hwarn : tier3_warnings exampleTable.length 400 exampleInputs ≠ [] := by
    rw [tier3_warnings_ne_nil_iff]
    exact Or.inr (Or.inr (Or.inl ⟨1, rfl, by norm_num⟩))
  by_cases h1 : tier1_reasons returns.length (comp_win_rate returns)
      (disq_max_drawdown initial_capital returns cumPct) total_days = []
  · by_cases h2 : tier2_reasons v = []
    · by_cases h3 : tier3_warnings returns.length total_days v = []
      · rw [check_disq_branch4 returns total_days initial_capital cumPct v h1 h2 h3]
        refine ⟨?_, ?_, ?_, ?_, ?_, ?_, ?_, ?_, ?_, ?_, ?_, ?_, hwarn⟩ <;>
          simp [hc1, hc2, hc3, h1, h2, h3, check_disq_example]
      · rw [check_disq_branch3 returns total_days initial_capital cumPct v h1 h2 h3]
        refine ⟨?_, ?_, ?_, ?_, ?_, ?_, ?_, ?_, ?_, ?_, ?_, ?_, hwarn⟩ <;>
          first
            | (intro _; exact tier3_warnings_tags _ _ _)
            | simp [hc1, hc2, hc3, h1, h2, h3, check_disq_example]
    · rw [check_disq_branch2 returns total_days initial_capital cumPct v h1 h2]
      refine ⟨?_, ?_, ?_, ?_, ?_, ?_, ?_, ?_, ?_, ?_, ?_, ?_, hwarn⟩ <;>
        first
          | (intro _; exact tier2_reasons_tags _)
          | simp [hc1, hc2, hc3, h1, h2, check_disq_example]
  · rw [check_disq_branch1 returns total_days initial_capital cumPct v h1]
    refine ⟨?_, ?_, ?_, ?_, ?_, ?_, ?_, ?_, ?_, ?_, ?_, ?_, hwarn⟩ <;>
      first
        | (intro _; exact tier1_reasons_tags _ _ _ _)
        | simp [hc1, hc2, hc3, h1, check_disq_example]

/-- Witness for C1 at the spec's ten-trade example table. -/
theorem check_disqualification_tier_precedence_witness :
    exampleTable ≠ [] ∧
    (check_disqualification_criteria exampleTable 400 50 (some exampleCum)
        exampleInputs).tier = Tier.tier1 :=
  ⟨by simp [exampleTable],
    (check_disqualification_tier_precedence exampleTable 400 50 (some exampleCum)
      exampleInputs (by simp [exampleTable])).2.2.2.2.2.2.2.2.2.1⟩

/-- Rating buckets `'우수' / '양호' / '보통' / '개선필요'`. -/
inductive Rating where
  | excellent
  | good
  | fair
  | needsImprovement
  deriving Repr, DecidableEq

/-- The 8 category scores of `generate_final_score`, in source
(insertion) order. -/
structure FinalScores where
  backtest : ℚ
  walk_forward : ℚ
  timeseries_stability : ℚ
  statistical_confidence : ℚ
  trade_characteristics : ℚ
  extreme_scenario : ℚ
  position_optimization : ℚ
  advanced_statistics : ℚ
  deriving Repr, DecidableEq

/-- `list(scores.values())` in insertion order. -/
def scoresList (s : FinalScores) : List ℚ :=
  [s.backtest, s.walk_forward, s.timeseries_stability, s.statistical_confidence,
   s.trade_characteristics, s.extreme_scenario, s.position_optimization,
   s.advanced_statistics]

/-- Result of `generate_final_score` (without the wall-clock timestamp,
which belongs to the report model below). -/
structure FinalScoreResult where
  scores : FinalScores
  final_score : ℚ
  rating : Rating
  deriving Repr, DecidableEq

/-- `ComprehensiveEvaluator.generate_final_score`. -/
def generate_final_score (returns : List ℚ) (initial_capital : ℚ)
    (v : ValidatorInputs) : FinalScoreResult :=
  let win_rate := comp_win_rate returns
  let total_return := returns.sum
  let win_rate_score := min (win_rate * 100) 100
  let return_score := if 0 < total_return then min ((total_return / 40) * 100) 100 else 0
  let scores : FinalScores :=
    { backtest := min (win_rate_score * (1/2) + return_score * (1/2)) 100
      walk_forward := 75
      timeseries_stability :=
        match v.monthly_consistency with
        | some cv => max 0 (100 * (1 - min cv 1))
        | none => 50
      statistical_confidence :=
        match v.p_value with
        | some p =>
            if p < 1/1000 then 100 else if p < 1/100 then 90
            else if p < 1/20 then 80 else if p < 1/10 then 60 else 30
        | none => 50
      trade_characteristics :=
        match v.profit_factor with
        | some pf => min (pf * 50) 100
        | none => 50
      extreme_scenario :=
        match v.capital_shortage with
        | some sm => if sm.1 then min ((sm.2 / initial_capital) * 100) 100 else 0
        | none => 50
      position_optimization :=
        match v.sharpe_ratio with
        | some sh => min ((sh / 2) * 100) 100
        | none => 50
      advanced_statistics :=
        match v.r_squared with
        | some r2 => min (r2 * 125) 100
        | none => 50 }
  let final := mean (scoresList scores)
  { scores := scores
    final_score := final
    rating :=
      if 85 ≤ final then .excellent else if 75 ≤ final then .good
      else if 60 ≤ final then .fair else .needsImprovement }

/-- C2 (amended).  Each of the six categories that read a sub-analysis
result (time-series stability, statistical confidence, trade
characteristics, extreme scenario, position optimization, advanced
statistics) is assigned the neutral score 50 when its input is
missing; the Walk-Forward category however is always the constant
placeholder 75 — it never defaults to 50. -/
theorem generate_final_score_missing_defaults (returns : List ℚ)
    (initial_capital : ℚ) (v : ValidatorInputs) :
    (v.monthly_consistency = none →
      (generate_final_score returns initial_capital v).scores.timeseries_stability = 50) ∧
    (v.p_value = none →
      (generate_final_score returns initial_capital v).scores.statistical_confidence = 50) ∧
    (v.profit_factor = none →
      (generate_final_score returns initial_capital v).scores.trade_characteristics = 50) ∧
    (v.capital_shortage = none →
      (generate_final_score returns initial_capital v).scores.extreme_scenario = 50) ∧
    (v.sharpe_ratio = none →
      (generate_final_score returns initial_capital v).scores.position_optimization = 50) ∧
    (v.r_squared = none →
      (generate_final_score returns initial_capital v).scores.advanced_statistics = 50) ∧
    (generate_final_score returns initial_capital v).scores.walk_forward = 75 := by
  refine ⟨?_, ?_, ?_, ?_, ?_, ?_, ?_⟩ <;>
    first
      | (intro h; simp [generate_final_score, h])
      | simp [generate_final_score]

/-- Witness for C2's amended statement at an empty validator-result
set. -/
theorem generate_final_score_missing_defaults_witness :
    emptyInputs.monthly_consistency = none ∧
    (generate_final_score [] 50 emptyInputs).scores.timeseries_stability = 50 :=
  ⟨rfl, (generate_final_score_missing_defaults [] 50 emptyInputs).1 rfl⟩

/-- Counterexample for C2 as stated: with every sub-analysis result
missing, the Walk-Forward category is scored 75, not the neutral 50. -/
theorem walk_forward_score_counterexample :
    (generate_final_score [] 50 emptyInputs).scores.walk_forward = 75 ∧
    (75 : ℚ) ≠ 50 := by
  constructor
  · simp [generate_final_score]
  · norm_num

/-! ## The comprehensive report (C9)

`get_comprehensive_report` assembles metadata, disqualification,
final score and the sixteen validator outputs.  Three sources of
run-to-run variation exist in the Python code: `datetime.now()`
timestamps (in `metadata` and in `generate_final_score`), the
unseeded `np.random.choice` draws of `bootstrap_resampling`, and the
unseeded `np.random.choice` subsample that `analyze_distribution`
feeds to the Shapiro–Wilk test when the table has more than 5000
rows (statistics.py:250).  The embedding makes them explicit inputs:
`now` is the wall-clock reading, `rng` the bootstrap index draws (one
list per iteration), and `subsample` the Shapiro subsample index
draw; a second run is the same function at different `now` / `rng` /
`subsample`.  The scipy test procedures themselves (`stats.shapiro`,
`stats.kstest`) are deterministic functions of the sample they are
handed and enter as opaque function parameters shared by both runs. -/

/-- Bootstrap resample means (percent), one per iteration:
`np.random.choice(returns, size=n, replace=True).mean() * 100`. -/
def bootstrap_means (returns : List ℚ) (rng : List (List ℕ)) : List ℚ :=
  rng.map (fun idxs => mean (idxs.map (fun i => returns.getD i 0)) * 100)

/-- Result record of `bootstrap_resampling` (subset of fields). -/
structure BootstrapStats where
  n_iterations : ℕ
  mean_return : ℚ
  bootstrap_mean : ℚ
  probability_positive_return : ℚ
  deriving Repr, DecidableEq

/-- `ExtremeScenarioAnalyzer.bootstrap_resampling`. -/
def bootstrap_resampling (returns : List ℚ) (rng : List (List ℕ)) : BootstrapStats :=
  { n_iterations := rng.length
    mean_return := mean returns * 100
    bootstrap_mean := mean (bootstrap_means returns rng)
    probability_positive_return :=
      (((bootstrap_means returns rng).filter (fun m => decide (0 < m))).length : ℚ) /
        rng.length }

/-- `_assess_normality` outcomes: both tests pass / exactly one / none. -/
inductive NormalityAssessment where
  | normal
  | partialNormal
  | notNormal
  deriving Repr, DecidableEq

/-- The `2-3_distribution` block of `StatisticalTester.analyze_distribution`
(the fields relevant to determinism: the mean over the full column, the
Shapiro–Wilk results on the — possibly subsampled — input, the
Kolmogorov–Smirnov results on the full column, and the combined
assessment). -/
structure DistributionStats where
  mean : ℚ
  shapiro_wilk_stat : ℚ
  shapiro_wilk_p : ℚ
  shapiro_wilk_normal : Bool
  kolmogorov_smirnov_stat : ℚ
  kolmogorov_smirnov_p : ℚ
  normality_assessment : NormalityAssessment
  deriving Repr, DecidableEq

/-- `StatisticalTester.analyze_distribution`: when the table exceeds
5000 rows the Shapiro–Wilk test runs on the unseeded
`np.random.choice(returns, 5000, replace=False)` subsample, modelled by
the index draw `subsample`; otherwise on the full column.  `shapiro`
and `kstest` are the (deterministic) scipy procedures returning
(statistic, p-value). -/
def analyze_distribution (returns : List ℚ) (shapiro kstest : List ℚ → ℚ × ℚ)
    (subsample : List ℕ) : DistributionStats :=
  let sample := if 5000 < returns.length then
      subsample.map (fun i => returns.getD i 0)
    else returns
  { mean := mean returns
    shapiro_wilk_stat := (shapiro sample).1
    shapiro_wilk_p := (shapiro sample).2
    shapiro_wilk_normal := decide (1/20 < (shapiro sample).2)
    kolmogorov_smirnov_stat := (kstest returns).1
    kolmogorov_smirnov_p := (kstest returns).2
    normality_assessment :=
      if 1/20 < (shapiro sample).2 ∧ 1/20 < (kstest returns).2 then .normal
      else if 1/20 < (shapiro sample).2 ∨ 1/20 < (kstest returns).2 then .partialNormal
      else .notNormal }

/-- The `metadata` block of the report. -/
structure Metadata where
  total_trades : ℕ
  initial_capital : ℚ
  timestamp : ℤ
  deriving Repr, DecidableEq

/-- `final_score` block including its `datetime.now()` timestamp. -/
structure FinalScoreBlock where
  scores : FinalScores
  final_score : ℚ
  rating : Rating
  timestamp : ℤ
  deriving Repr, DecidableEq

/-- The comprehensive report: metadata, verdict, score and the
validator outputs (the deterministic ones embedded in this file, the
RNG-dependent bootstrap block, and the distribution block whose
Shapiro–Wilk fields are RNG-dependent on tables over 5000 rows). -/
structure Report where
  metadata : Metadata
  disqualification : Disqualification
  final_score : FinalScoreBlock
  validators_consecutive : ConsecutiveStats
  validators_kelly : KellyStats
  validators_capital_shortage : ShortageStats
  validators_bootstrap : BootstrapStats
  validators_distribution : DistributionStats
  deriving Repr, DecidableEq

/-- `ComprehensiveEvaluator.get_comprehensive_report`: one full run at
wall-clock reading `now` with bootstrap draws `rng` and Shapiro
subsample draw `subsample` (the scipy procedures `shapiro` / `kstest`
are fixed across runs).  The statistics battery works on percent
units, the extreme-scenario analyzer on `return_pct / 100`. -/
def get_comprehensive_report (returns : List ℚ) (total_days : ℤ)
    (initial_capital : ℚ) (cumPct : Option (List ℚ)) (v : ValidatorInputs)
    (shapiro kstest : List ℚ → ℚ × ℚ)
    (now : ℤ) (rng : List (List ℕ)) (subsample : List ℕ) : Report :=
  { metadata :=
      { total_trades := returns.length, initial_capital := initial_capital
        timestamp := now }
    disqualification := check_disqualification_criteria returns total_days
      initial_capital cumPct v
    final_score :=
      { scores := (generate_final_score returns initial_capital v).scores
        final_score := (generate_final_score returns initial_capital v).final_score
        rating := (generate_final_score returns initial_capital v).rating
        timestamp := now }
    validators_consecutive := analyze_consecutive_trades returns
    validators_kelly := calculate_kelly returns
    validators_capital_shortage :=
      analyze_capital_shortage initial_capital 1 (returns.map (· / 100))
    validators_bootstrap := bootstrap_resampling (returns.map (· / 100)) rng
    validators_distribution := analyze_distribution returns shapiro kstest subsample }

lemma analyze_distribution_small (returns : List ℚ) (shapiro kstest : List ℚ → ℚ × ℚ)
    (ss ss2 : List ℕ) (h : returns.length ≤ 5000) :
    analyze_distribution returns shapiro kstest ss =
      analyze_distribution returns shapiro kstest ss2 := by
  simp only [analyze_distribution, if_neg (not_lt.mpr h)]

/-- C9 (amended).  Two runs of the evaluator on the identical,
unmodified trade table (arbitrary clock readings and RNG draws) agree
on the disqualification verdict, all eight category scores, the final
score and rating, the metadata counts, every deterministic validator
output, and the deterministic fields of the distribution block (mean
and Kolmogorov–Smirnov results); for tables of at most 5000 rows the
whole distribution block agrees as well.  The exceptions — the two
timestamp fields, the bootstrap block, and (only on tables over 5000
rows) the Shapiro–Wilk fields computed from the random subsample —
are exactly the RNG/clock-fed parts of the code. -/
theorem get_comprehensive_report_deterministic_core (returns : List ℚ)
    (total_days : ℤ) (initial_capital : ℚ) (cumPct : Option (List ℚ))
    (v : ValidatorInputs) (shapiro kstest : List ℚ → ℚ × ℚ)
    (now now2 : ℤ) (rng rng2 : List (List ℕ)) (subsample subsample2 : List ℕ) :
    (get_comprehensive_report returns total_days initial_capital cumPct v shapiro
        kstest now rng subsample).disqualification =
      (get_comprehensive_report returns total_days initial_capital cumPct v shapiro
        kstest now2 rng2 subsample2).disqualification ∧
    (get_comprehensive_report returns total_days initial_capital cumPct v shapiro
        kstest now rng subsample).final_score.scores =
      (get_comprehensive_report returns total_days initial_capital cumPct v shapiro
        kstest now2 rng2 subsample2).final_score.scores ∧
    (get_comprehensive_report returns total_days initial_capital cumPct v shapiro
        kstest now rng subsample).final_score.final_score =
      (get_comprehensive_report returns total_days initial_capital cumPct v shapiro
        kstest now2 rng2 subsample2).final_score.final_score ∧
    (get_comprehensive_report returns total_days initial_capital cumPct v shapiro
        kstest now rng subsample).final_score.rating =
      (get_comprehensive_report returns total_days initial_capital cumPct v shapiro
        kstest now2 rng2 subsample2).final_score.rating ∧
    (get_comprehensive_report returns total_days initial_capital cumPct v shapiro
        kstest now rng subsample).metadata.total_trades =
      (get_comprehensive_report returns total_days initial_capital cumPct v shapiro
        kstest now2 rng2 subsample2).metadata.total_trades ∧
    (get_comprehensive_report returns total_days initial_capital cumPct v shapiro
        kstest now rng subsample).validators_consecutive =
      (get_comprehensive_report returns total_days initial_capital cumPct v shapiro
        kstest now2 rng2 subsample2).validators_consecutive ∧
    (get_comprehensive_report returns total_days initial_capital cumPct v shapiro
        kstest now rng subsample).validators_kelly =
      (get_comprehensive_report returns total_days initial_capital cumPct v shapiro
        kstest now2 rng2 subsample2).validators_kelly ∧
    (get_comprehensive_report returns total_days initial_capital cumPct v shapiro
        kstest now rng subsample).validators_capital_shortage =
      (get_comprehensive_report returns total_days initial_capital cumPct v shapiro
        kstest now2 rng2 subsample2).validators_capital_shortage ∧
    (get_comprehensive_report returns total_days initial_capital cumPct v shapiro
        kstest now rng subsample).validators_distribution.mean =
      (get_comprehensive_report returns total_days initial_capital cumPct v shapiro
        kstest now2 rng2 subsample2).validators_distribution.mean ∧
    (get_comprehensive_report returns total_days initial_capital cumPct v shapiro
        kstest now rng subsample).validators_distribution.kolmogorov_smirnov_stat =
      (get_comprehensive_report returns total_days initial_capital cumPct v shapiro
        kstest now2 rng2 subsample2).validators_distribution.kolmogorov_smirnov_stat ∧
    (get_comprehensive_report returns total_days initial_capital cumPct v shapiro
        kstest now rng subsample).validators_distribution.kolmogorov_smirnov_p =
      (get_comprehensive_report returns total_days initial_capital cumPct v shapiro
        kstest now2 rng2 subsample2).validators_distribution.kolmogorov_smirnov_p ∧
    (returns.length ≤ 5000 →
      (get_comprehensive_report returns total_days initial_capital cumPct v shapiro
          kstest now rng subsample).validators_distribution =
        (get_comprehensive_report returns total_days initial_capital cumPct v shapiro
          kstest now2 rng2 subsample2).validators_distribution) :=
  ⟨rfl, rfl, rfl, rfl, rfl, rfl, rfl, rfl, rfl, rfl, rfl,
    fun h => analyze_distribution_small returns shapiro kstest _ _ h⟩

/-- A stand-in deterministic scipy test procedure for the concrete
counterexample (statistic and p-value both the sample mean); like the
real `stats.shapiro`, it is a fixed function of the sample it is
handed, which is all the counterexample needs. -/
def exShapiro : List ℚ → ℚ × ℚ := fun l => (mean l, mean l)

/-- A 5001-row table (one trade at +1 %, five thousand at 0 %): large
enough to trigger the Shapiro–Wilk subsampling branch. -/
def bigTable : List ℚ := 1 :: List.replicate 5000 0

/-- Counterexample for C9 as stated: two runs on the identical,
unmodified two-trade table differ — the timestamp fields follow the
clock and the bootstrap mean follows the random draws (here 10 % vs
−10 %) — so the reports are not identical in every field; and on a
5001-row table even the Shapiro–Wilk statistic differs between runs,
because its input is the random subsample. -/
theorem get_comprehensive_report_not_identical :
    (get_comprehensive_report [10, -10] 365 50 none emptyInputs exShapiro exShapiro
        0 [[0]] []).metadata.timestamp ≠
      (get_comprehensive_report [10, -10] 365 50 none emptyInputs exShapiro exShapiro
        1 [[1]] []).metadata.timestamp ∧
    (get_comprehensive_report [10, -10] 365 50 none emptyInputs exShapiro exShapiro
        0 [[0]] []).validators_bootstrap.bootstrap_mean = 10 ∧
    (get_comprehensive_report [10, -10] 365 50 none emptyInputs exShapiro exShapiro
        1 [[1]] []).validators_bootstrap.bootstrap_mean = -10 ∧
    get_comprehensive_report [10, -10] 365 50 none emptyInputs exShapiro exShapiro
        0 [[0]] [] ≠
      get_comprehensive_report [10, -10] 365 50 none emptyInputs exShapiro exShapiro
        1 [[1]] [] ∧
    5000 < bigTable.length ∧
    (get_comprehensive_report bigTable 365 50 none emptyInputs exShapiro exShapiro
        0 [[0]] [0]).validators_distribution.shapiro_wilk_stat = 1 ∧
    (get_comprehensive_report bigTable 365 50 none emptyInputs exShapiro exShapiro
        0 [[0]] [1]).validators_distribution.shapiro_wilk_stat = 0 := by
  have hbig : 5000 < bigTable.length := by
    rw [bigTable, List.length_cons, List.length_replicate]
    norm_num
  have hget0 : bigTable.getD 0 0 = 1 := rfl
  have hget1 : bigTable.getD 1 0 = 0 := by
    show (List.replicate 5000 (0 : ℚ)).getD 0 0 = 0
    rw [show (5000 : ℕ) = 4999 + 1 from rfl, List.replicate_succ]
    rfl
  refine ⟨by norm_num [get_comprehensive_report], ?_, ?_, ?_, hbig, ?_, ?_⟩
  · show mean (bootstrap_means ([(10 : ℚ), -10].map (· / 100)) [[0]]) = 10
    norm_num [bootstrap_means, mean]
  · show mean (bootstrap_means ([(10 : ℚ), -10].map (· / 100)) [[1]]) = -10
    norm_num [bootstrap_means, mean]
  · intro h
    have := congrArg (fun r => r.metadata.timestamp) h
    norm_num [get_comprehensive_report] at this
  · show (analyze_distribution bigTable exShapiro exShapiro [0]).shapiro_wilk_stat = 1
    simp only [analyze_distribution, if_pos hbig, List.map_cons, List.map_nil]
    rw [hget0]
    norm_num [exShapiro, mean]
  · show (analyze_distribution bigTable exShapiro exShapiro [1]).shapiro_wilk_stat = 0
    simp only [analyze_distribution, if_pos hbig, List.map_cons, List.map_nil]
    rw [hget1]
    norm_num [exShapiro, mean]

end Phoenix